import Mathlib

/-!
Verification of the praxis-mcp DAG execution subsystem.

This file gives a shallow embedding of the pieces of the source that the
properties below are about: the artifact command pipeline
(`src/core/artifact_manager.py`, `src/core/artifacts/*`), the DAG executor
(`src/core/dag_executor.py`), the loop strategy
(`src/core/loop_execution_strategy.py`) and the execution context
(`src/core/execution_context.py`).  Modules that the executor imports but
whose sources are not part of the corpus (`dag_state.py`,
`suspend_context.py`, `checkpoint_manager.py`) are modelled from the
specification and are marked as such in their doc comments.

Python dictionaries are modelled as association lists over `String` keys
where an earlier entry shadows a later one; Python values as the inductive
`Val`; exceptions as explicit sum types.  The asynchronous scheduler is
embedded as a sequential supervising loop in which each launched task runs
to completion before the next launch decision - a schedule the source
permits - except for the dedicated small-step interleaving model used for
the concurrency bound, which keeps task phases explicit.
-/

namespace Praxis

/-- String-keyed association map modelling a Python `dict`.  An earlier
entry shadows a later one, so `set` simply prepends. -/
structure SMap (α : Type) where
  entries : List (String × α)

def SMap.empty {α : Type} : SMap α := ⟨[]⟩

def findEntry {α : Type} (l : List (String × α)) (k : String) : Option α :=
  match l with
  | [] => none
  | (k', v) :: rest => if k' = k then some v else findEntry rest k

def SMap.find? {α : Type} (m : SMap α) (k : String) : Option α :=
  findEntry m.entries k

def SMap.set {α : Type} (m : SMap α) (k : String) (v : α) : SMap α :=
  ⟨(k, v) :: m.entries⟩

def SMap.contains {α : Type} (m : SMap α) (k : String) : Bool :=
  (m.find? k).isSome

/-- `d.update(other)` of Python: keys of `other` win. -/
def SMap.update {α : Type} (m other : SMap α) : SMap α :=
  ⟨other.entries ++ m.entries⟩

def SMap.getD {α : Type} (m : SMap α) (k : String) (d : α) : α :=
  (m.find? k).getD d

/-- Python runtime values, as far as the modelled code inspects them. -/
inductive Val where
  | vnone
  | vbool (b : Bool)
  | vnat (n : Nat)
  | vstr (s : String)
  | vlist (xs : List Val)
  | vdict (entries : List (String × Val))

/-- Python truthiness of a value. -/
def Val.truthy : Val → Bool
  | .vnone => false
  | .vbool b => b
  | .vnat n => n != 0
  | .vstr s => s ≠ ""
  | .vlist xs => !xs.isEmpty
  | .vdict m => !m.isEmpty

/-- Key lookup on a `Val` that is a dict (`d.get(k)` semantics: `none` when
the value is not a dict or the key is absent). -/
def Val.dget (v : Val) (k : String) : Option Val :=
  match v with
  | .vdict m => findEntry m k
  | _ => none

def Val.isDict : Val → Bool
  | .vdict _ => true
  | _ => false

/-- `str(v)` as the transcript builder interpolates values. -/
def Val.pyStr : Val → String
  | .vnone => "None"
  | .vbool b => if b then "True" else "False"
  | .vnat n => toString n
  | .vstr s => s
  | .vlist _ => "[...]"
  | .vdict _ => "dict"

end Praxis

namespace Praxis.Artifacts

/-- `CommandStatus` (src/core/artifacts/commands.py:10-17). -/
inductive CommandStatus where
  | pending
  | in_progress
  | completed
  | failed
deriving DecidableEq, Repr

/-- `ArtifactOperation` (src/core/artifacts/commands.py:19-24). -/
inductive ArtifactOperation where
  | save
  | delete
  | update
deriving DecidableEq, Repr

/-- `ArtifactCommand` (src/core/artifacts/commands.py:27-55).  The `id`,
`metadata` and `timestamp` fields play no role in the properties below and
are omitted; `content` is a `Val`. -/
structure ArtifactCommand where
  operation : ArtifactOperation
  task_id : String
  filename : String
  content : Val
  content_type : String
  subdir : Option String
  status : CommandStatus
  error : Option String

/-- `ArtifactCommand.with_status` (commands.py:57-81): copy with new status
and error, everything else preserved. -/
def ArtifactCommand.with_status (c : ArtifactCommand) (status : CommandStatus)
    (error : Option String) : ArtifactCommand :=
  { c with status := status, error := error }

/-- The four default middleware handlers
(src/core/artifacts/handler.py:34-39). -/
inductive Handler where
  | validate_command
  | prepare_directories
  | save_to_disk
  | record_command
deriving DecidableEq, Repr

/-- `ArtifactCommandHandler.setup_default_handlers` (handler.py:34-39):
appends the four default handlers to the middleware chain
(`ArtifactMiddleware.use` appends, middleware.py:112-120). -/
def setup_default_handlers (handlers : List Handler) : List Handler :=
  handlers ++ [.validate_command, .prepare_directories, .save_to_disk, .record_command]

/-- Mutable state of an `ArtifactCommandHandler`: its middleware chain and
its command history (handler.py:27-29). -/
structure ArtifactCommandHandler where
  handlers : List Handler
  command_history : List ArtifactCommand

/-- `ArtifactCommandHandler.__init__` (handler.py:21-32): empty chain and
history, then one installation of the default chain. -/
def handlerInit : ArtifactCommandHandler :=
  { handlers := setup_default_handlers [], command_history := [] }

/-- `ArtifactManager.__init__` (src/core/artifact_manager.py:31-48):
constructs the command handler (whose `__init__` already installed the
default chain) and then calls `setup_default_handlers` on it a second
time. -/
def managerInit : ArtifactCommandHandler :=
  { handlerInit with handlers := setup_default_handlers handlerInit.handlers }

/-- One middleware handler applied to a command, threading the command
history.  `validate_command` (handler.py:41-48) raises when `task_id` or
`filename` is empty and otherwise moves the command to IN_PROGRESS;
`prepare_directories` (handler.py:50-77) only touches the filesystem
(directory creation with `exist_ok=True`, assumed to succeed) and returns
the command; `save_to_disk` (handler.py:79-129) writes the file (assumed to
succeed) and returns the command with status COMPLETED; `record_command`
(handler.py:131-137) appends the command to `command_history`. -/
def runHandler (h : Handler) (hist : List ArtifactCommand) (c : ArtifactCommand) :
    Except String (Option ArtifactCommand) × List ArtifactCommand :=
  match h with
  | .validate_command =>
      if c.task_id = "" ∨ c.filename = "" then
        (.error "Command must have task_id and filename", hist)
      else
        (.ok (some (c.with_status .in_progress none)), hist)
  | .prepare_directories => (.ok (some c), hist)
  | .save_to_disk => (.ok (some (c.with_status .completed none)), hist)
  | .record_command => (.ok (some c), hist ++ [c])

/-- `ArtifactMiddleware.execute` (middleware.py:122-149): run the handlers
in sequence, each receiving the previous handler's output command; a `none`
result terminates the chain; an exception propagates as a
`MiddlewareError`.  History mutations made before a failure persist. -/
def middlewareExecute (hs : List Handler) (hist : List ArtifactCommand)
    (c : ArtifactCommand) : Except String (Option ArtifactCommand) × List ArtifactCommand :=
  match hs with
  | [] => (.ok (some c), hist)
  | h :: rest =>
      match runHandler h hist c with
      | (.error e, hist') => (.error e, hist')
      | (.ok none, hist') => (.ok none, hist')
      | (.ok (some c'), hist') => middlewareExecute rest hist' c'

/-- `ArtifactCommandHandler.execute` (handler.py:146-172): run the chain;
a terminated chain or an exception is converted into a FAILED copy of the
original command. -/
def handlerExecute (st : ArtifactCommandHandler) (c : ArtifactCommand) :
    ArtifactCommand × ArtifactCommandHandler :=
  match middlewareExecute st.handlers st.command_history c with
  | (.error e, hist') =>
      (c.with_status .failed (some e), { st with command_history := hist' })
  | (.ok none, hist') =>
      (c.with_status .failed (some "Command execution terminated"),
       { st with command_history := hist' })
  | (.ok (some r), hist') => (r, { st with command_history := hist' })

/-- `ArtifactManager._get_content_type` (artifact_manager.py:92-100). -/
def get_content_type (content : Val) : String :=
  match content with
  | .vdict _ => "json"
  | .vlist _ => "json"
  | .vstr _ => "text"
  | _ => "unknown"

/-- `ArtifactManager.save_artifact` (artifact_manager.py:102-145): build a
SAVE command with status PENDING and run it through the handler; raise when
the result is FAILED. -/
def save_artifact (st : ArtifactCommandHandler) (task_id filename : String)
    (content : Val) (subdir : Option String) :
    Except String ArtifactCommand × ArtifactCommandHandler :=
  let command : ArtifactCommand :=
    { operation := .save, task_id := task_id, filename := filename,
      content := content, content_type := get_content_type content,
      subdir := subdir, status := .pending, error := none }
  let res := handlerExecute st command
  if res.1.status = .failed then
    (.error ((res.1.error).getD "Failed to save artifact"), res.2)
  else
    (.ok res.1, res.2)

/-- `ArtifactCommandHandler.get_task_artifacts` (handler.py:174-183). -/
def get_task_artifacts (st : ArtifactCommandHandler) (task_id : String) :
    List ArtifactCommand :=
  st.command_history.filter (fun cmd => cmd.task_id = task_id)

end Praxis.Artifacts

namespace Praxis.Artifacts

/-- C10: after `ArtifactManager.__init__` the middleware chain holds the four
default handlers twice (`ArtifactCommandHandler.__init__` installs them and
`ArtifactManager.__init__` installs them again), so one successful
`save_artifact` call traverses the chain of eight handlers, runs
`record_command` twice, and leaves two command records in `command_history`
(and hence in `get_task_artifacts`) for that single save. -/
theorem save_artifact_records_twice (tid fn : String) (content : Val)
    (sd : Option String) (htid : tid ≠ "") (hfn : fn ≠ "") :
    managerInit.handlers.length = 8 ∧
    ((save_artifact managerInit tid fn content sd).1.isOk = true ∧
     ((save_artifact managerInit tid fn content sd).2.command_history.length = 2 ∧
      (get_task_artifacts (save_artifact managerInit tid fn content sd).2 tid).length = 2)) := by
  refine ⟨rfl, ?_⟩
  simp only [save_artifact, handlerExecute, middlewareExecute, runHandler,
    managerInit, handlerInit, setup_default_handlers, get_task_artifacts,
    ArtifactCommand.with_status]
  simp [htid, hfn, Except.isOk, Except.toBool]

/-- Witness for C10: a concrete save with non-empty task id and filename. -/
theorem save_artifact_records_twice_witness :
    ("t" : String) ≠ "" ∧ ("f" : String) ≠ "" ∧
    (managerInit.handlers.length = 8 ∧
     ((save_artifact managerInit "t" "f" (Val.vstr "x") none).1.isOk = true ∧
      ((save_artifact managerInit "t" "f" (Val.vstr "x") none).2.command_history.length = 2 ∧
       (get_task_artifacts (save_artifact managerInit "t" "f" (Val.vstr "x") none).2 "t").length = 2))) :=
  ⟨by decide, by decide,
   save_artifact_records_twice "t" "f" (Val.vstr "x") none (by decide) (by decide)⟩

end Praxis.Artifacts

namespace Praxis.Exec

open Praxis

/-- `StepStatus` (src/core/dag_executor.py:63-71). -/
inductive StepStatus where
  | pending
  | running
  | completed
  | failed
  | skipped
  | suspended
deriving DecidableEq, Repr

/-- Typed errors surfaced to the scheduler.  `src/core/errors.py` is not in
the corpus; the kinds are those imported at dag_executor.py:27-33 together
with `DAGExecutionError` (dag_executor.py:103-109) and the `ValueError`
raised on a stall (dag_executor.py:852). -/
inductive PErr where
  | inputError (msg : String)
  | retryable (msg : String)
  | pluginError (msg : String)
  | dagExecutionError (step : String) (msg : String)
  | valueError (msg : String)
  | generic (msg : String)
deriving DecidableEq, Repr

def PErr.msg : PErr → String
  | .inputError m => m
  | .retryable m => m
  | .pluginError m => m
  | .dagExecutionError _ m => m
  | .valueError m => m
  | .generic m => m

/-- Modelled from the spec: per-step state (§3 StepState; `dag_state.py` is
not part of the corpus).  Timing and artifacts are omitted. -/
structure StepState where
  status : StepStatus
  error : Option PErr
deriving DecidableEq, Repr

/-- Modelled from the spec: `DAGState` (§3, §4.2).  `names` is the step
universe in declaration order (the `step_numbers` ordering); `states` maps
names to step states. -/
structure DAGState where
  names : List String
  states : SMap StepState

/-- All steps start PENDING (spec §3: "StepState is created PENDING at run
start"). -/
def DAGState.init (ns : List String) : DAGState :=
  ⟨ns, ⟨ns.map (fun n => (n, ⟨.pending, none⟩))⟩⟩

def DAGState.stateOf (d : DAGState) (n : String) : StepState :=
  (d.states.find? n).getD ⟨.pending, none⟩

def DAGState.statusOf (d : DAGState) (n : String) : StepStatus :=
  (d.stateOf n).status

def DAGState.errorOf (d : DAGState) (n : String) : Option PErr :=
  (d.stateOf n).error

def DAGState.has_step (d : DAGState) (n : String) : Bool :=
  d.names.contains n

def DAGState.setState (d : DAGState) (n : String) (s : StepState) : DAGState :=
  { d with states := d.states.set n s }

/-- Modelled from the spec: `mark_running` (§4.2). -/
def DAGState.markRunning (d : DAGState) (n : String) : DAGState :=
  d.setState n ⟨.running, (d.stateOf n).error⟩

/-- Modelled from the spec: `mark_completed` (§4.2). -/
def DAGState.markCompleted (d : DAGState) (n : String) : DAGState :=
  d.setState n ⟨.completed, (d.stateOf n).error⟩

/-- Modelled from the spec: `mark_failed(name, error)` (§4.2). -/
def DAGState.markFailed (d : DAGState) (n : String) (e : PErr) : DAGState :=
  d.setState n ⟨.failed, some e⟩

/-- Modelled from the spec: `mark_skipped` (§4.2). -/
def DAGState.markSkipped (d : DAGState) (n : String) : DAGState :=
  d.setState n ⟨.skipped, (d.stateOf n).error⟩

/-- Modelled from the spec: `mark_suspended` (§4.2). -/
def DAGState.markSuspended (d : DAGState) (n : String) : DAGState :=
  d.setState n ⟨.suspended, (d.stateOf n).error⟩

/-- Modelled from the spec: `mark_completed_from_suspension(name,
clear_error=true)` (§4.2): resets the error and moves to COMPLETED. -/
def DAGState.markCompletedFromSuspension (d : DAGState) (n : String)
    (clear_error : Bool) : DAGState :=
  d.setState n ⟨.completed, if clear_error then none else (d.stateOf n).error⟩

/-- Modelled from the spec: `clear_step_error` (§4.2). -/
def DAGState.clearStepError (d : DAGState) (n : String) : DAGState :=
  d.setState n ⟨(d.stateOf n).status, none⟩

/-- Modelled from the spec: resuming a suspended step moves it back to
PENDING (§4.8: "the step transitions from SUSPENDED back to PENDING"). -/
def DAGState.markResumed (d : DAGState) (n : String) : DAGState :=
  d.setState n ⟨.pending, (d.stateOf n).error⟩

def DAGState.failedSteps (d : DAGState) : List String :=
  d.names.filter (fun n => decide (d.statusOf n = .failed))

def DAGState.runningSteps (d : DAGState) : List String :=
  d.names.filter (fun n => decide (d.statusOf n = .running))

/-- Terminal for the current run (spec I4: COMPLETED, FAILED, SKIPPED are
terminal for the normal phase; SUSPENDED is terminal for the current run). -/
def StepStatus.isTerminalForRun : StepStatus → Bool
  | .completed => true
  | .failed => true
  | .skipped => true
  | .suspended => true
  | _ => false

/-- Modelled from the spec: `get_remaining_steps` - steps that have not
reached a state that is terminal for the current run. -/
def DAGState.remainingSteps (d : DAGState) : List String :=
  d.names.filter (fun n => !(d.statusOf n).isTerminalForRun)

mutual

/-- Structural equality of Python values, used by conditional-dependency
predicates. -/
def valEq : Val → Val → Bool
  | .vnone, .vnone => true
  | .vbool a, .vbool b => a == b
  | .vnat a, .vnat b => a == b
  | .vstr a, .vstr b => a == b
  | .vlist xs, .vlist ys => valListEq xs ys
  | .vdict xs, .vdict ys => valEntriesEq xs ys
  | _, _ => false

def valListEq : List Val → List Val → Bool
  | [], [] => true
  | x :: xs, y :: ys => valEq x y && valListEq xs ys
  | _, _ => false

def valEntriesEq : List (String × Val) → List (String × Val) → Bool
  | [], [] => true
  | (k, x) :: xs, (k', y) :: ys => k == k' && valEq x y && valEntriesEq xs ys
  | _, _ => false

end

/-- A parsed dependency as produced by `DAGValidator.validate_steps`
(spec §4.1: `ParsedDependency | step_name, is_conditional, predicate?`;
`dag_validator.py` is not part of the corpus). -/
structure ParsedDependency where
  step_name : String
  is_conditional : Bool
  when_output_equals : Option Val

/-- The slice of `StepConfig` (spec §3) that drives scheduling, with the
dependencies already in parsed form. -/
structure StepCfg where
  name : String
  fail_on_error : Bool
  is_finally : Bool
  deps : List ParsedDependency

/-- The parsed-dependency map `step -> list[ParsedDependency]` keyed from
the step list (`self._parsed_dependencies`, dag_executor.py:1059). -/
def depsOf (steps : List StepCfg) (n : String) : List ParsedDependency :=
  ((steps.find? (fun s => s.name == n)).map (fun s => s.deps)).getD []

/-- The pipeline context data map. -/
abbrev Ctx := SMap Val

/-- Modelled from the spec: one dependency check inside `is_ready` (§4.2):
a non-conditional dependency must be COMPLETED; a conditional dependency
must be COMPLETED and its recorded output must satisfy the predicate
evaluated against the context view. -/
def depSatisfied (d : DAGState) (ctx : Ctx) (p : ParsedDependency) : Bool :=
  if p.is_conditional then
    decide (d.statusOf p.step_name = .completed) &&
      (match p.when_output_equals, ctx.find? p.step_name with
       | some expected, some out => valEq out expected
       | _, _ => false)
  else
    decide (d.statusOf p.step_name = .completed)

/-- Modelled from the spec: `is_ready` (§4.2): PENDING and every dependency
satisfied. -/
def isStepReady (d : DAGState) (n : String) (deps : List ParsedDependency)
    (ctx : Ctx) : Bool :=
  decide (d.statusOf n = .pending) && deps.all (depSatisfied d ctx)

/-- Modelled from the spec: `is_ready_for_finally` (§4.2): finally steps run
when all non-finally steps have reached a state terminal for the run, the
step itself is PENDING, and its own dependencies (honoured among finally
steps) are terminal. -/
def isStepReadyForFinally (d : DAGState) (n : String)
    (deps : List ParsedDependency) (steps : List StepCfg) : Bool :=
  decide (d.statusOf n = .pending) &&
    (steps.filter (fun s => !s.is_finally)).all
      (fun s => (d.statusOf s.name).isTerminalForRun) &&
    deps.all (fun p => (d.statusOf p.step_name).isTerminalForRun)

/-- Modelled from the spec: `SuspendContext` (`suspend_context.py` is not in
the corpus): suspended step names with their reasons and data, filled by
`request_suspend` (used at dag_executor.py:627-629). -/
structure SuspendContext where
  suspended_steps : List String
  suspend_reasons : SMap String
  suspend_data : SMap Val

def SuspendContext.empty : SuspendContext := ⟨[], .empty, .empty⟩

def SuspendContext.request_suspend (sc : SuspendContext) (step reason : String)
    (data : Val) : SuspendContext :=
  ⟨sc.suspended_steps ++ [step], sc.suspend_reasons.set step reason,
   sc.suspend_data.set step data⟩

/-- Behaviour of one step's task, abstracting the resolved plugin run
(`PluginInvoker.invoke` after input resolution and after the retry loop of
`_run_with_retries` has settled): normal return with an output, a terminal
typed failure, or a cooperative suspension request. -/
inductive Outcome where
  | success (out : Val)
  | failure (e : PErr)
  | suspendReq (reason : String) (data : Val)

/-- The executor state threaded through a run: the DAG state, the shared
context data, and the run's suspend context. -/
structure ExecSt where
  dag : DAGState
  ctx : Ctx
  susp : SuspendContext

/-- One launched task, run to completion and processed, as the sequential
schedule of the supervising loop.  `_create_step_task` marks the step
RUNNING at creation (dag_executor.py:758).  On normal return the output is
merged under the step's namespace (`PluginOutputHandler`, spec §4.5) and
`_process_completed_task` marks the step COMPLETED unless it was already
marked FAILED (dag_executor.py:971-979).  On a terminal failure
`_run_with_retries` marks the step FAILED (dag_executor.py:634-683) and, for
a critical step, the exception propagates out of `_process_completed_task`
as a `DAGExecutionError` (dag_executor.py:995-1020), returned here as
`some abort`.  On suspension the step is marked SUSPENDED and recorded in
the suspend context (dag_executor.py:613-632); `_process_completed_task`
swallows the signal (dag_executor.py:985-987). -/
def execReadyStep (o : String → Outcome) (step : StepCfg) (st : ExecSt) :
    ExecSt × Option PErr :=
  let d := st.dag.markRunning step.name
  match o step.name with
  | .success out =>
      ({ st with dag := d.markCompleted step.name,
                 ctx := st.ctx.set step.name out }, none)
  | .failure e =>
      let d := d.markFailed step.name e
      if step.fail_on_error then
        ({ st with dag := d }, some (.dagExecutionError step.name e.msg))
      else
        ({ st with dag := d }, none)
  | .suspendReq reason data =>
      ({ st with dag := d.markSuspended step.name,
                 susp := st.susp.request_suspend step.name reason data }, none)

/-- Launch-and-process the batch of ready steps in declaration order; a
critical failure aborts the batch (the raise of `_process_completed_task`
propagates out of `_execute_normal_phase`). -/
def execReadyList (o : String → Outcome) (ready : List StepCfg) (st : ExecSt) :
    ExecSt × Option PErr :=
  match ready with
  | [] => (st, none)
  | s :: rest =>
      match execReadyStep o s st with
      | (st', some e) => (st', some e)
      | (st', none) => execReadyList o rest st'

/-- The stall-resolution test of the normal phase (dag_executor.py:823-847):
a remaining step is marked SKIPPED when some dependency is conditional with
its source COMPLETED, or when some dependency is FAILED - the failed
dependency's `fail_on_error` flag is not consulted. -/
def stepWaitsOnCondOrFailed (d : DAGState) (deps : List ParsedDependency) : Bool :=
  deps.any (fun p =>
    (p.is_conditional && decide (d.statusOf p.step_name = .completed)) ||
      decide (d.statusOf p.step_name = .failed))

def markAllSkipped (d : DAGState) (ns : List String) : DAGState :=
  ns.foldl (fun acc n => acc.markSkipped n) d

/-- `_execute_normal_phase` (dag_executor.py:772-871), sequentialized: each
round computes the ready non-finally steps; when none are ready and nothing
is in flight, either the phase is complete, or steps blocked on unmet
conditional branches or failed dependencies are marked SKIPPED and the
phase ends, or the pipeline stalls with a `ValueError`; otherwise the ready
batch is launched and processed.  Returns the final state together with the
error that aborted the phase, if any; `none` when the fuel runs out. -/
def normalLoop (o : String → Outcome) (steps : List StepCfg) :
    Nat → ExecSt → Option (ExecSt × Option PErr)
  | 0, _ => none
  | fuel + 1, st =>
      let normal := steps.filter (fun s => !s.is_finally)
      let ready := normal.filter (fun s => isStepReady st.dag s.name (depsOf steps s.name) st.ctx)
      if ready.isEmpty then
        let remaining := st.dag.remainingSteps.filter
          (fun n => normal.any (fun s => s.name == n))
        if remaining.isEmpty then some (st, none)
        else
          let toSkip := remaining.filter
            (fun n => stepWaitsOnCondOrFailed st.dag (depsOf steps n))
          if toSkip.isEmpty then
            some (st, some (.valueError "Pipeline stalled"))
          else
            some ({ st with dag := markAllSkipped st.dag toSkip }, none)
      else
        match execReadyList o ready st with
        | (st', some e) => some (st', some e)
        | (st', none) => normalLoop o steps fuel st'

/-- Process a completed finally-phase task: a critical failure is caught
and collected instead of propagating (dag_executor.py:936-942). -/
def execFinallyList (o : String → Outcome) (ready : List StepCfg) (st : ExecSt)
    (errs : List PErr) : ExecSt × List PErr :=
  match ready with
  | [] => (st, errs)
  | s :: rest =>
      match execReadyStep o s st with
      | (st', some e) => execFinallyList o rest st' (errs ++ [e])
      | (st', none) => execFinallyList o rest st' errs

/-- The loop of `_execute_finally_phase` (dag_executor.py:890-942): both the
phase-complete case and a stall end the loop without raising. -/
def finallyLoop (o : String → Outcome) (steps : List StepCfg) :
    Nat → ExecSt → List PErr → Option (ExecSt × List PErr)
  | 0, _, _ => none
  | fuel + 1, st, errs =>
      let fin := steps.filter (fun s => s.is_finally)
      let ready := fin.filter
        (fun s => isStepReadyForFinally st.dag s.name (depsOf steps s.name) steps)
      if ready.isEmpty then some (st, errs)
      else
        let r := execFinallyList o ready st errs
        finallyLoop o steps fuel r.1 r.2

/-- The end-of-phase scan of `_execute_finally_phase`
(dag_executor.py:944-957): every finally step that ended FAILED contributes
its recorded error (or a generic one) to `finally_errors`. -/
def finallyEndScan (d : DAGState) (steps : List StepCfg) : List PErr :=
  (steps.filter (fun s => s.is_finally && decide (d.statusOf s.name = .failed))).map
    (fun s => (d.errorOf s.name).getD (.generic ("Finally step " ++ s.name ++ " failed")))

/-- `_execute_finally_phase` (dag_executor.py:873-957): early return when
there are no finally steps; otherwise the loop followed by the failed-step
scan.  The phase never aborts - its result is a list of collected errors. -/
def executeFinallyPhase (o : String → Outcome) (steps : List StepCfg)
    (fuel : Nat) (st : ExecSt) : Option (ExecSt × List PErr) :=
  if (steps.filter (fun s => s.is_finally)).isEmpty then some (st, [])
  else
    match finallyLoop o steps fuel st [] with
    | none => none
    | some (st', errs) => some (st', errs ++ finallyEndScan st'.dag steps)

/-- Modelled from the spec: a checkpoint document (§3 Checkpoint;
`checkpoint_manager.py` is not in the corpus). -/
structure Checkpoint where
  checkpoint_id : Nat
  task_id : String
  pipeline_id : String
  dag_state_snapshot : DAGState
  context_snapshot : Ctx
  suspended_at_steps : List String
  suspend_reasons : SMap String
  suspend_data : SMap Val

/-- `_create_suspension_checkpoint` (dag_executor.py:1206-1263): no
checkpoint without a checkpoint manager, while steps are still running, or
without a task id; otherwise `create_checkpoint` (modelled from spec §4.8)
persists the DAG state, the context data, and the suspension metadata, and
a `PipelineSuspendedException` carrying the checkpoint id is raised. -/
def createSuspensionCheckpoint (cmPresent : Bool) (taskId : Option String)
    (pipelineId : String) (st : ExecSt) : Option Checkpoint :=
  if !cmPresent then none
  else if !st.dag.runningSteps.isEmpty then none
  else
    match taskId with
    | none => none
    | some tid =>
        if tid = "" then none
        else some
          { checkpoint_id := 1, task_id := tid, pipeline_id := pipelineId,
            dag_state_snapshot := st.dag, context_snapshot := st.ctx,
            suspended_at_steps := st.susp.suspended_steps,
            suspend_reasons := st.susp.suspend_reasons,
            suspend_data := st.susp.suspend_data }

/-- What `executeDAG` terminates with. -/
inductive RunResult where
  | ok
  | pipelineError (normal : Option PErr) (finallyErrs : List PErr)
  | suspendedSig (checkpoint_id : Nat) (suspended_steps : List String)
deriving DecidableEq, Repr

/-- The observable outcome of a run: the raised (or absent) signal, the
final executor state, the captured per-phase errors, and the checkpoint if
one was written. -/
structure RunDone where
  result : RunResult
  final : ExecSt
  normalErr : Option PErr
  finallyErrs : List PErr
  checkpoint : Option Checkpoint

/-- The tail of `executeDAG` (dag_executor.py:1164-1174): raise an
aggregate `PipelineExecutionError` when either phase erred, then, in the
`finally:` block, create a suspension checkpoint when the suspend context
is non-empty - the `PipelineSuspendedException` raised inside the block
replaces any pending aggregate error. -/
def finishRun (cmPresent : Bool) (taskId : Option String) (pipelineId : String)
    (st2 : ExecSt) (normalErr : Option PErr) (finErrs : List PErr) : RunDone :=
  let aggregate : RunResult :=
    if normalErr.isSome || !finErrs.isEmpty then
      .pipelineError normalErr finErrs
    else .ok
  let signalled : RunResult × Option Checkpoint :=
    if st2.susp.suspended_steps.isEmpty then (aggregate, none)
    else
      match createSuspensionCheckpoint cmPresent taskId pipelineId st2 with
      | some cp => (.suspendedSig cp.checkpoint_id cp.suspended_at_steps, some cp)
      | none => (aggregate, none)
  ⟨signalled.1, st2, normalErr, finErrs, signalled.2⟩

/-- The state-initialization prefix of `executeDAG`
(dag_executor.py:1064-1100): a fresh `DAGState` when none was restored,
otherwise the restored state with any step missing from it added as
PENDING at the end. -/
def initRunState (steps : List StepCfg) (initDag : DAGState) (ctx : Ctx)
    (susp0 : SuspendContext) : ExecSt :=
  let dag0 :=
    if initDag.names.isEmpty then DAGState.init (steps.map (fun s => s.name))
    else
      (steps.map (fun s => s.name)).foldl
        (fun d n => if d.has_step n then d
          else { d with names := d.names ++ [n], states := d.states.set n ⟨.pending, none⟩ })
        initDag
  ⟨dag0, ctx, susp0⟩

/-- `executeDAG` (dag_executor.py:1034-1204): initialize or merge the DAG
state (`initRunState`); run the normal phase, capturing its error instead
of re-raising (1145-1153); run the finally phase unconditionally,
collecting its errors (1155-1162); then the aggregation and
suspension-checkpoint tail (`finishRun`).  Connection resolution and
progress reporting do not affect these observables and are omitted; `none`
means the fuel ran out. -/
def executeDAG (o : String → Outcome) (steps : List StepCfg) (fuel : Nat)
    (initDag : DAGState) (ctx : Ctx) (susp0 : SuspendContext)
    (cmPresent : Bool) (taskId : Option String) (pipelineId : String) :
    Option RunDone :=
  match normalLoop o steps fuel (initRunState steps initDag ctx susp0) with
  | none => none
  | some (st1, normalErr) =>
      match executeFinallyPhase o steps fuel st1 with
      | none => none
      | some (st2, finErrs) =>
          some (finishRun cmPresent taskId pipelineId st2 normalErr finErrs)

end Praxis.Exec

namespace Praxis.Exec

open Praxis

theorem finishRun_final (cm : Bool) (tid : Option String) (pid : String)
    (st2 : ExecSt) (ne : Option PErr) (fe : List PErr) :
    (finishRun cm tid pid st2 ne fe).final = st2 := rfl

theorem finishRun_normalErr (cm : Bool) (tid : Option String) (pid : String)
    (st2 : ExecSt) (ne : Option PErr) (fe : List PErr) :
    (finishRun cm tid pid st2 ne fe).normalErr = ne := rfl

theorem finishRun_finallyErrs (cm : Bool) (tid : Option String) (pid : String)
    (st2 : ExecSt) (ne : Option PErr) (fe : List PErr) :
    (finishRun cm tid pid st2 ne fe).finallyErrs = fe := rfl

/-- When the suspend context is non-empty, nothing is running, and a
checkpoint manager and a non-empty task id are available, the run tail
creates the checkpoint and raises the suspension signal carrying its id. -/
theorem finishRun_suspends (tid pid : String) (st2 : ExecSt) (ne : Option PErr)
    (fe : List PErr) (hsusp : st2.susp.suspended_steps ≠ [])
    (hrun : st2.dag.runningSteps = []) (htid : tid ≠ "") :
    finishRun true (some tid) pid st2 ne fe =
      ⟨.suspendedSig 1 st2.susp.suspended_steps, st2, ne, fe,
       some ⟨1, tid, pid, st2.dag, st2.ctx, st2.susp.suspended_steps,
             st2.susp.suspend_reasons, st2.susp.suspend_data⟩⟩ := by
  unfold finishRun createSuspensionCheckpoint
  simp [hsusp, hrun, htid]

/-- Every finally step that ended FAILED contributes its recorded error to
the end-of-phase scan. -/
theorem mem_finallyEndScan (d : DAGState) (steps : List StepCfg) (s : StepCfg)
    (hs : s ∈ steps) (hf : s.is_finally = true)
    (hfail : d.statusOf s.name = .failed) :
    (d.errorOf s.name).getD (.generic ("Finally step " ++ s.name ++ " failed")) ∈
      finallyEndScan d steps := by
  unfold finallyEndScan
  exact List.mem_map_of_mem _ (List.mem_filter.mpr ⟨hs, by simp [hf, hfail]⟩)

/-- The run tail raises the aggregate error exactly when one of the phases
erred and no suspension checkpoint replaced it. -/
theorem finishRun_result_iff (cm : Bool) (tid : Option String) (pid : String)
    (st2 : ExecSt) (ne : Option PErr) (fe : List PErr) :
    (finishRun cm tid pid st2 ne fe).result = .pipelineError ne fe ↔
      ((ne ≠ none ∨ fe ≠ []) ∧ (finishRun cm tid pid st2 ne fe).checkpoint = none) := by
  unfold finishRun
  by_cases hne : ne = none
  · by_cases hfe : fe = []
    · subst hne hfe
      simp only [ne_eq, not_true_eq_false, or_self, false_and, iff_false]
      split
      · simp
      · split <;> simp
    · have hb : ((none : Option PErr).isSome || !(fe.isEmpty)) = true := by
        simp [List.isEmpty_iff, hfe]
      subst hne
      simp only [hb]
      split
      · simp [hfe]
      · split
        · simp
        · simp [hfe]
  · have hb : (ne.isSome || !(fe.isEmpty)) = true := by
      simp [Option.isSome_iff_ne_none, hne]
    simp only [hb]
    split
    · simp [hne]
    · split
      · simp
      · simp [hne]

/-- C2 (amended): for every completed run, the finally phase is applied to
the state the normal phase left behind, whether or not the normal phase
erred; a finally step's failure never aborts the phase - the recorded error
of every FAILED finally step is collected into `finally_errors`; and
`executeDAG` raises the single aggregate `PipelineExecutionError` carrying
the normal-phase error and the collected finally errors exactly when an
error exists and no suspension checkpoint was raised in its place. -/
theorem executeDAG_finally_phase_error_collection (o : String → Outcome)
    (steps : List StepCfg) (fuel : Nat) (initDag : DAGState) (ctx : Ctx)
    (susp0 : SuspendContext) (cm : Bool) (taskId : Option String) (pid : String)
    (rd : RunDone)
    (hrun : executeDAG o steps fuel initDag ctx susp0 cm taskId pid = some rd) :
    (∃ st1, normalLoop o steps fuel (initRunState steps initDag ctx susp0) =
        some (st1, rd.normalErr) ∧
      executeFinallyPhase o steps fuel st1 = some (rd.final, rd.finallyErrs)) ∧
    (∀ s ∈ steps, s.is_finally = true → rd.final.dag.statusOf s.name = .failed →
      (rd.final.dag.errorOf s.name).getD
        (.generic ("Finally step " ++ s.name ++ " failed")) ∈ rd.finallyErrs) ∧
    (rd.result = .pipelineError rd.normalErr rd.finallyErrs ↔
      ((rd.normalErr ≠ none ∨ rd.finallyErrs ≠ []) ∧ rd.checkpoint = none)) := by
  unfold executeDAG at hrun
  cases hN : normalLoop o steps fuel (initRunState steps initDag ctx susp0) with
  | none => rw [hN] at hrun; exact absurd hrun (by simp)
  | some p =>
    rw [hN] at hrun
    obtain ⟨st1, ne⟩ := p
    dsimp only at hrun
    cases hF : executeFinallyPhase o steps fuel st1 with
    | none => rw [hF] at hrun; exact absurd hrun (by simp)
    | some q =>
      rw [hF] at hrun
      obtain ⟨st2, fe⟩ := q
      simp only [Option.some.injEq] at hrun
      subst hrun
      simp only [finishRun_final, finishRun_normalErr, finishRun_finallyErrs]
      refine ⟨⟨st1, by simp [hN], by simp [hF]⟩, ?_,
        finishRun_result_iff cm taskId pid st2 ne fe⟩
      intro s hs hfin hfail
      unfold executeFinallyPhase at hF
      split at hF
      · rename_i hempty
        exfalso
        have hmem : s ∈ steps.filter (fun s => s.is_finally) :=
          List.mem_filter.mpr ⟨hs, hfin⟩
        rw [List.isEmpty_iff] at hempty
        rw [hempty] at hmem
        exact absurd hmem (List.not_mem_nil s)
      · cases hFL : finallyLoop o steps fuel st1 [] with
        | none => rw [hFL] at hF; exact absurd hF (by simp)
        | some q2 =>
          rw [hFL] at hF
          obtain ⟨st', errs⟩ := q2
          simp only [Option.some.injEq, Prod.mk.injEq] at hF
          obtain ⟨hst, herrs⟩ := hF
          subst hst
          rw [← herrs]
          exact List.mem_append_right _ (mem_finallyEndScan _ _ _ hs hfin hfail)

/-- A run with a suspending step `a` and a failing finally step `z`. -/
def c2Outcome : String → Outcome := fun n =>
  if n = "a" then .suspendReq "need input" .vnone
  else .failure (.pluginError "cleanup failed")

def c2Steps : List StepCfg := [⟨"a", true, false, []⟩, ⟨"z", true, true, []⟩]

def c2Run : Option RunDone :=
  executeDAG c2Outcome c2Steps 4 (DAGState.init []) .empty .empty true (some "t2") "pipe"

/-- Placeholder run used as the `Option.getD` default when naming the value
of a concrete run inside closed statements. -/
def emptyRun : RunDone := ⟨.ok, ⟨DAGState.init [], .empty, .empty⟩, none, [], none⟩

/-- C2 counterexample: a run in which a finally-phase error was collected
yet `executeDAG` does not raise a `PipelineExecutionError` - the
`PipelineSuspendedException` raised for the suspension checkpoint replaces
the aggregate error in the `finally:` block of `executeDAG`. -/
theorem executeDAG_finally_aggregate_counterexample :
    c2Run = some (c2Run.getD emptyRun) ∧
    (c2Run.getD emptyRun).finallyErrs ≠ [] ∧
    ∀ ne fe, (c2Run.getD emptyRun).result ≠ .pipelineError ne fe := by
  refine ⟨rfl, by decide, ?_⟩
  intro ne fe hcontra
  have hres : (c2Run.getD emptyRun).result = .suspendedSig 1 ["a"] := rfl
  rw [hres] at hcontra
  exact RunResult.noConfusion hcontra

/-- Witness for C2 (amended) at the concrete two-step run. -/
theorem executeDAG_finally_phase_error_collection_witness :
    c2Run = some (c2Run.getD emptyRun) ∧
    ((∃ st1, normalLoop c2Outcome c2Steps 4
          (initRunState c2Steps (DAGState.init []) .empty .empty) =
        some (st1, (c2Run.getD emptyRun).normalErr) ∧
      executeFinallyPhase c2Outcome c2Steps 4 st1 =
        some ((c2Run.getD emptyRun).final, (c2Run.getD emptyRun).finallyErrs)) ∧
    (∀ s ∈ c2Steps, s.is_finally = true →
        (c2Run.getD emptyRun).final.dag.statusOf s.name = .failed →
      ((c2Run.getD emptyRun).final.dag.errorOf s.name).getD
        (.generic ("Finally step " ++ s.name ++ " failed")) ∈
          (c2Run.getD emptyRun).finallyErrs) ∧
    ((c2Run.getD emptyRun).result =
        .pipelineError (c2Run.getD emptyRun).normalErr (c2Run.getD emptyRun).finallyErrs ↔
      (((c2Run.getD emptyRun).normalErr ≠ none ∨ (c2Run.getD emptyRun).finallyErrs ≠ []) ∧
        (c2Run.getD emptyRun).checkpoint = none))) :=
  ⟨rfl, executeDAG_finally_phase_error_collection c2Outcome c2Steps 4
    (DAGState.init []) .empty .empty true (some "t2") "pipe"
    (c2Run.getD emptyRun) rfl⟩

end Praxis.Exec

namespace Praxis.Exec

open Praxis

/-- C3: in every completed run whose suspend context is non-empty and with
no step still in flight, `executeDAG` - after running the finally phase -
creates a checkpoint capturing the DAG state, the context data, the
suspended step names, their reasons and their data, and raises the
`PipelineSuspended` signal carrying the checkpoint id, terminating the
run.  The phase-ordering conjunct shows the snapshotted state `rd.final`
is the output of the finally phase. -/
theorem executeDAG_suspension_checkpoint (o : String → Outcome)
    (steps : List StepCfg) (fuel : Nat) (initDag : DAGState) (ctx : Ctx)
    (susp0 : SuspendContext) (tid pid : String) (rd : RunDone)
    (hrun : executeDAG o steps fuel initDag ctx susp0 true (some tid) pid = some rd)
    (hsusp : rd.final.susp.suspended_steps ≠ [])
    (hrunning : rd.final.dag.runningSteps = []) (htid : tid ≠ "") :
    (∃ st1, normalLoop o steps fuel (initRunState steps initDag ctx susp0) =
        some (st1, rd.normalErr) ∧
      executeFinallyPhase o steps fuel st1 = some (rd.final, rd.finallyErrs)) ∧
    ∃ cp, rd.checkpoint = some cp ∧
      rd.result = .suspendedSig cp.checkpoint_id rd.final.susp.suspended_steps ∧
      cp.task_id = tid ∧ cp.pipeline_id = pid ∧
      cp.dag_state_snapshot = rd.final.dag ∧
      cp.context_snapshot = rd.final.ctx ∧
      cp.suspended_at_steps = rd.final.susp.suspended_steps ∧
      cp.suspend_reasons = rd.final.susp.suspend_reasons ∧
      cp.suspend_data = rd.final.susp.suspend_data := by
  unfold executeDAG at hrun
  cases hN : normalLoop o steps fuel (initRunState steps initDag ctx susp0) with
  | none => rw [hN] at hrun; exact absurd hrun (by simp)
  | some p =>
    rw [hN] at hrun
    obtain ⟨st1, ne⟩ := p
    dsimp only at hrun
    cases hF : executeFinallyPhase o steps fuel st1 with
    | none => rw [hF] at hrun; exact absurd hrun (by simp)
    | some q =>
      rw [hF] at hrun
      obtain ⟨st2, fe⟩ := q
      simp only [Option.some.injEq] at hrun
      subst hrun
      rw [finishRun_final] at hsusp hrunning
      refine ⟨⟨st1, by simp [hN, finishRun_normalErr],
        by simp [hF, finishRun_final, finishRun_finallyErrs]⟩, ?_⟩
      rw [finishRun_suspends tid pid st2 ne fe hsusp hrunning htid]
      exact ⟨_, rfl, rfl, rfl, rfl, rfl, rfl, rfl, rfl, rfl⟩

/-- A run whose only step requests suspension. -/
def c3Outcome : String → Outcome := fun _ => .suspendReq "need input" (.vstr "question")

def c3Steps : List StepCfg := [⟨"ask_user", true, false, []⟩]

def c3Run : Option RunDone :=
  executeDAG c3Outcome c3Steps 3 (DAGState.init []) .empty .empty true (some "t1") "pipe"

/-- Witness for C3 at a concrete suspending run. -/
theorem executeDAG_suspension_checkpoint_witness :
    c3Run = some (c3Run.getD emptyRun) ∧
    (c3Run.getD emptyRun).final.susp.suspended_steps ≠ [] ∧
    (c3Run.getD emptyRun).final.dag.runningSteps = [] ∧ ("t1" : String) ≠ "" ∧
    ((∃ st1, normalLoop c3Outcome c3Steps 3
          (initRunState c3Steps (DAGState.init []) .empty .empty) =
        some (st1, (c3Run.getD emptyRun).normalErr) ∧
      executeFinallyPhase c3Outcome c3Steps 3 st1 =
        some ((c3Run.getD emptyRun).final, (c3Run.getD emptyRun).finallyErrs)) ∧
    ∃ cp, (c3Run.getD emptyRun).checkpoint = some cp ∧
      (c3Run.getD emptyRun).result =
        .suspendedSig cp.checkpoint_id (c3Run.getD emptyRun).final.susp.suspended_steps ∧
      cp.task_id = "t1" ∧ cp.pipeline_id = "pipe" ∧
      cp.dag_state_snapshot = (c3Run.getD emptyRun).final.dag ∧
      cp.context_snapshot = (c3Run.getD emptyRun).final.ctx ∧
      cp.suspended_at_steps = (c3Run.getD emptyRun).final.susp.suspended_steps ∧
      cp.suspend_reasons = (c3Run.getD emptyRun).final.susp.suspend_reasons ∧
      cp.suspend_data = (c3Run.getD emptyRun).final.susp.suspend_data) := by
  refine ⟨rfl, by decide, by decide, by decide, ?_⟩
  exact executeDAG_suspension_checkpoint c3Outcome c3Steps 3 (DAGState.init [])
    .empty .empty "t1" "pipe" (c3Run.getD emptyRun) rfl
    (by decide) (by decide) (by decide)

/-- C6 (amended): when a step with `fail_on_error=false` fails, its status
is FAILED with its error recorded and the normal phase is not aborted, but
its dependents do not execute: the stall-resolution branch of
`_execute_normal_phase` marks any remaining step with a FAILED dependency
as SKIPPED without consulting the failed step's `fail_on_error` flag, so
the dependent is SKIPPED whatever its own flag is. -/
theorem noncritical_failure_skips_dependents (o' : String → Outcome) (e : PErr)
    (bflag : Bool) :
    ∃ rd, executeDAG (fun n => if n = "a" then Outcome.failure e else o' n)
        [⟨"a", false, false, []⟩, ⟨"b", bflag, false, [⟨"a", false, none⟩]⟩] 4
        (DAGState.init []) .empty .empty false none "p" = some rd ∧
      rd.final.dag.statusOf "a" = .failed ∧
      rd.final.dag.errorOf "a" = some e ∧
      rd.final.dag.statusOf "b" = .skipped ∧
      rd.normalErr = none :=
  ⟨_, rfl, rfl, rfl, rfl, rfl⟩

/-- A run where non-critical step `a` fails and `b` (also non-critical)
depends on it. -/
def c6Outcome : String → Outcome := fun n =>
  if n = "a" then .failure (.pluginError "boom") else .success (.vstr "ok")

def c6Steps : List StepCfg :=
  [⟨"a", false, false, []⟩, ⟨"b", false, false, [⟨"a", false, none⟩]⟩]

def c6Run : Option RunDone :=
  executeDAG c6Outcome c6Steps 4 (DAGState.init []) .empty .empty false none "p"

/-- C6 counterexample: step `a` has `fail_on_error=false` and fails; its
dependent `b` also has `fail_on_error=false`, yet `b` does not execute - it
ends SKIPPED, refuting the claim that dependents with `fail_on_error=false`
still execute and that only dependents of critical FAILED steps are
skipped. -/
theorem noncritical_failure_dependent_not_executed :
    c6Run = some (c6Run.getD emptyRun) ∧
    (c6Run.getD emptyRun).final.dag.statusOf "a" = .failed ∧
    (∃ s, s ∈ c6Steps ∧ s.name = "b" ∧ s.fail_on_error = false) ∧
    (c6Run.getD emptyRun).final.dag.statusOf "b" = .skipped ∧
    (c6Run.getD emptyRun).final.dag.statusOf "b" ≠ .completed := by
  refine ⟨rfl, by decide, ⟨⟨"b", false, false, [⟨"a", false, none⟩]⟩,
    by simp [c6Steps], rfl, rfl⟩, by decide, by decide⟩

end Praxis.Exec

namespace Praxis.Retry

open Praxis

/-- `RETRY_DELAY` (dag_executor.py:142): default retry delay in seconds. -/
def RETRY_DELAY : Rat := 1

/-- Outcome of one attempt of the plugin body inside `_run_with_retries`:
either a normal return or a `RetryablePluginError`. -/
inductive AttemptOutcome where
  | ok (out : Val)
  | retryableErr (msg : String)

/-- Observables of one `_run_with_retries` invocation chain: how many
attempts ran, the sleeps performed between consecutive attempts, whether
the step was marked FAILED at the end, and whether the error was re-raised
(`fail_on_error`). -/
structure RetryRun where
  attempts : Nat
  delays : List Rat
  failed : Bool
  raised : Bool
deriving DecidableEq, Repr

/-- The `RetryablePluginError` branch of `_run_with_retries`
(dag_executor.py:643-662): while `attempt < max_retries - 1`, sleep
`RETRY_DELAY * (attempt + 1)` seconds and recurse with `attempt + 1`;
otherwise mark the step FAILED and re-raise when `fail_on_error`. -/
def runWithRetries (attemptResult : Nat → AttemptOutcome) (fail_on_error : Bool)
    (max_retries attempt : Nat) : RetryRun :=
  match attemptResult attempt with
  | .ok _ => ⟨attempt + 1, [], false, false⟩
  | .retryableErr _ =>
      if _h : attempt < max_retries - 1 then
        let r := runWithRetries attemptResult fail_on_error max_retries (attempt + 1)
        ⟨r.attempts, (RETRY_DELAY * ((attempt + 1 : Nat) : Rat)) :: r.delays,
         r.failed, r.raised⟩
      else
        ⟨attempt + 1, [], true, fail_on_error⟩
termination_by max_retries - attempt
decreasing_by omega

theorem runWithRetries_attempts_le (g : Nat → AttemptOutcome) (foe : Bool)
    (mr : Nat) :
    ∀ k a, mr - a ≤ k → a < mr → (runWithRetries g foe mr a).attempts ≤ mr := by
  intro k
  induction k with
  | zero => intro a hk ha; omega
  | succ k ih =>
      intro a hk ha
      unfold runWithRetries
      cases g a with
      | ok out => simpa using ha
      | retryableErr m =>
          simp only
          split
          · rename_i hlt
            exact ih (a + 1) (by omega) (by omega)
          · simpa using ha

theorem runWithRetries_allRetryable (f : Nat → String) (foe : Bool) (mr : Nat) :
    ∀ k a, mr - a ≤ k → a < mr →
      runWithRetries (fun n => .retryableErr (f n)) foe mr a =
        ⟨mr, (List.range' (a + 1) (mr - 1 - a)).map
          (fun j => RETRY_DELAY * (j : Rat)), true, foe⟩ := by
  intro k
  induction k with
  | zero => intro a hk ha; omega
  | succ k ih =>
      intro a hk ha
      unfold runWithRetries
      simp only
      split
      · rename_i hlt
        rw [ih (a + 1) (by omega) (by omega)]
        have hn : mr - 1 - a = (mr - 1 - (a + 1)) + 1 := by omega
        rw [hn, List.range'_succ]
        simp
      · rename_i hge
        have : a + 1 = mr := by omega
        have h0 : mr - 1 - a = 0 := by omega
        rw [h0]
        simp [this]

end Praxis.Retry

namespace Praxis.Retry

/-- C5: for every step whose plugin raises `RetryableError` on each
attempt, the executor attempts the step at most `max_retries` times,
sleeping `RETRY_DELAY * attempt_number` seconds between consecutive
attempts (linear back-off with base `RETRY_DELAY = 1` second), and after
the final failed attempt marks the step FAILED (re-raising exactly when
the step is critical). -/
theorem retry_policy (f : Nat → String) (foe : Bool) (mr : Nat) (hmr : 1 ≤ mr) :
    (∀ g : Nat → AttemptOutcome, (runWithRetries g foe mr 0).attempts ≤ mr) ∧
    runWithRetries (fun n => .retryableErr (f n)) foe mr 0 =
      ⟨mr, (List.range' 1 (mr - 1)).map (fun j => RETRY_DELAY * (j : Rat)),
       true, foe⟩ ∧
    RETRY_DELAY = 1 := by
  refine ⟨fun g => runWithRetries_attempts_le g foe mr mr 0 (by omega) (by omega),
    ?_, rfl⟩
  have h := runWithRetries_allRetryable f foe mr mr 0 (by omega) (by omega)
  simpa using h

/-- Witness for C5 at the default `max_retries = 3`: three attempts with
sleeps of 1 s and 2 s between them. -/
theorem retry_policy_witness :
    (1 ≤ 3) ∧
    ((∀ g : Nat → AttemptOutcome, (runWithRetries g true 3 0).attempts ≤ 3) ∧
     runWithRetries (fun _ => .retryableErr "timeout") true 3 0 =
       ⟨3, (List.range' 1 (3 - 1)).map (fun j => RETRY_DELAY * (j : Rat)),
        true, true⟩ ∧
     RETRY_DELAY = 1) ∧
    (runWithRetries (fun _ => .retryableErr "timeout") true 3 0).delays = [1, 2] := by
  refine ⟨by decide, retry_policy (fun _ => "timeout") true 3 (by decide), ?_⟩
  have h := runWithRetries_allRetryable (fun _ => "timeout") true 3 3 0
    (by omega) (by omega)
  rw [h]
  norm_num [RETRY_DELAY, List.range']

end Praxis.Retry

namespace Praxis.Loop

open Praxis

/-- The fields of `LoopConfig` (spec §3; `src/core/step_config.py` is not in
the corpus) that `loop_execution_strategy.py` reads. -/
structure LoopConfig where
  collection : Option String
  count : Option Nat
  condition : Option String
  item_name : Option String
  index_name : Option String
  result_name : Option String
  fail_fast : Bool
  max_iterations : Nat

/-- The pipeline context data map (as in the executor model). -/
abbrev Ctx := SMap Val

/-- What one execution of the loop body (a nested `DAGExecutor` run via
`_run_loop_body`, loop_execution_strategy.py:383-419) does: return normally,
raise, or propagate a suspension; `result` is the iteration context's data
(`iteration_context.get_data()`) at the point the strategy reads it. -/
inductive BodyOutcome where
  | ok (result : Ctx)
  | failed (result : Ctx)
  | suspended (result : Ctx)

def BodyOutcome.isSuspended : BodyOutcome → Bool
  | .suspended _ => true
  | _ => false

/-- How a loop evaluation ends: normal return, a propagated
`PipelineSuspendedException`, or the re-raise of a failed iteration under
`fail_fast`. -/
inductive LoopExit (α : Type) where
  | normal (r : α)
  | raisedSuspend (r : α)
  | raisedFailFast (r : α)

def LoopExit.normalD {α : Type} : LoopExit α → α → α
  | .normal r, _ => r
  | _, d => d

/-- Binding of `item_name` and `index_name` into the iteration context
(loop_execution_strategy.py:201-204). -/
def iterationCtx (cfg : LoopConfig) (loopCtx : Ctx) (i : Nat) (item : Val) : Ctx :=
  let c := match cfg.item_name with | some k => loopCtx.set k item | none => loopCtx
  match cfg.index_name with | some k => c.set k (.vnat i) | none => c

/-- Observables of a collection/count loop run: how many body executions
ran, which `(index, item)` pairs they processed in order, whether any
iteration failed, and the final loop context. -/
structure CollLoopResult where
  iterations : Nat
  processed : List (Nat × Val)
  anyFailed : Bool
  loopCtx : Ctx

/-- The iteration loop of `_execute_collection_or_count_loop`
(loop_execution_strategy.py:186-252): items below `start_index` are
skipped (resume); a successful iteration merges its context back into the
loop context; a suspension merges and re-raises; a failure skips the merge,
records the failure, and re-raises only under `fail_fast`. -/
def collLoopGo (runBody : Nat → Ctx → BodyOutcome) (cfg : LoopConfig)
    (pairs : List (Nat × Val)) (start_index : Nat) (loopCtx : Ctx)
    (anyFailed : Bool) (processed : List (Nat × Val)) : LoopExit CollLoopResult :=
  match pairs with
  | [] => .normal ⟨processed.length, processed, anyFailed, loopCtx⟩
  | (i, item) :: rest =>
      if i < start_index then
        collLoopGo runBody cfg rest start_index loopCtx anyFailed processed
      else
        let ictx := iterationCtx cfg loopCtx i item
        match runBody i ictx with
        | .ok data =>
            collLoopGo runBody cfg rest start_index (loopCtx.update data)
              anyFailed (processed ++ [(i, item)])
        | .suspended data =>
            .raisedSuspend ⟨(processed ++ [(i, item)]).length,
              processed ++ [(i, item)], anyFailed, loopCtx.update data⟩
        | .failed _ =>
            if cfg.fail_fast then
              .raisedFailFast ⟨(processed ++ [(i, item)]).length,
                processed ++ [(i, item)], true, loopCtx⟩
            else
              collLoopGo runBody cfg rest start_index loopCtx true
                (processed ++ [(i, item)])

/-- `_execute_collection_or_count_loop` (loop_execution_strategy.py:130-266):
the items come from `parent_context.get(collection, [])`; when that is empty
and `count` is set, `range(count)` is used; an empty item list returns
immediately with no iterations and no failure.  On a fresh run
(`get_loop_iteration_index()` is None) iteration starts at index 0; on
resume, items marked `item_<value>_processed` in the loop context are
skipped.  `bodyEmpty` mirrors `_create_synthetic_body` returning no
executable body (loop_execution_strategy.py:158-163). -/
def executeCollectionOrCountLoop (runBody : Nat → Ctx → BodyOutcome)
    (cfg : LoopConfig) (parentCtx loopCtx : Ctx)
    (loopIterationIndex : Option Nat) (bodyEmpty : Bool) :
    LoopExit CollLoopResult :=
  let items : List Val :=
    match cfg.collection with
    | some cname =>
        match parentCtx.find? cname with
        | some (.vlist l) => l
        | _ => []
    | none => []
  let items :=
    if items.isEmpty then
      match cfg.count with
      | some c => (List.range c).map (fun i => Val.vnat i)
      | none => items
    else items
  if items.isEmpty then .normal ⟨0, [], false, loopCtx⟩
  else if bodyEmpty then .normal ⟨0, [], false, loopCtx⟩
  else
    let start_index :=
      match loopIterationIndex with
      | none => 0
      | some _ =>
          ((List.range items.length).filter (fun idx =>
            ((loopCtx.find? ("item_" ++ ((items.get? idx).getD .vnone).pyStr ++
              "_processed")).getD (.vbool false)).truthy)).length
    collLoopGo runBody cfg items.enum start_index loopCtx false []

/-- How the loop step as a whole ends, combining `execute_loop`
(loop_execution_strategy.py:68-128) with how `DAGExecutor` marks the step:
a normal return marks the step COMPLETED, the summary exception for failed
iterations (or a `fail_fast` re-raise) marks it FAILED, and a propagated
suspension marks it SUSPENDED. -/
inductive LoopStepResult where
  | completedStep (parentCtx : Ctx)
  | failedStep (parentCtx : Ctx)
  | suspendedStep (parentCtx : Ctx)

/-- `execute_loop` for a collection/count loop: the loop context is a copy
of the parent context; on normal return or suspension the loop context is
merged back into the parent; the step fails iff an iteration failed. -/
def execute_loop_collection (runBody : Nat → Ctx → BodyOutcome)
    (cfg : LoopConfig) (parentCtx : Ctx) (loopIterationIndex : Option Nat)
    (bodyEmpty : Bool) : LoopStepResult :=
  match executeCollectionOrCountLoop runBody cfg parentCtx parentCtx
      loopIterationIndex bodyEmpty with
  | .normal r =>
      if r.anyFailed then .failedStep (parentCtx.update r.loopCtx)
      else .completedStep (parentCtx.update r.loopCtx)
  | .raisedSuspend r => .suspendedStep (parentCtx.update r.loopCtx)
  | .raisedFailFast _ => .failedStep parentCtx

theorem collLoopGo_no_failfast (runBody : Nat → Ctx → BodyOutcome)
    (cfg : LoopConfig) (hff : cfg.fail_fast = false)
    (hns : ∀ i c, (runBody i c).isSuspended = false) :
    ∀ (pairs : List (Nat × Val)) (ctx : Ctx) (af : Bool)
      (proc : List (Nat × Val)),
      ∃ af' ctx', collLoopGo runBody cfg pairs 0 ctx af proc =
        .normal ⟨(proc ++ pairs).length, proc ++ pairs, af', ctx'⟩ := by
  intro pairs
  induction pairs with
  | nil =>
      intro ctx af proc
      exact ⟨af, ctx, by simp [collLoopGo]⟩
  | cons p rest ih =>
      intro ctx af proc
      obtain ⟨i, item⟩ := p
      have hl : proc ++ [(i, item)] ++ rest = proc ++ (i, item) :: rest := by simp
      unfold collLoopGo
      simp only [Nat.not_lt_zero, if_false]
      cases hb : runBody i (iterationCtx cfg ctx i item) with
      | ok data =>
          dsimp only
          obtain ⟨af', ctx', h⟩ := ih (ctx.update data) af (proc ++ [(i, item)])
          rw [hl] at h
          exact ⟨af', ctx', h⟩
      | suspended data =>
          exact absurd (hns i (iterationCtx cfg ctx i item))
            (by rw [hb]; simp [BodyOutcome.isSuspended])
      | failed data =>
          dsimp only
          simp only [hff, Bool.false_eq_true, if_false]
          obtain ⟨af', ctx', h⟩ := ih ctx true (proc ++ [(i, item)])
          rw [hl] at h
          exact ⟨af', ctx', h⟩

end Praxis.Loop

namespace Praxis.Loop

open Praxis

/-- C8: for every collection-driven loop step on a fresh run, the elements
of the sequence stored at `context[collection]` are iterated in order (the
processed pairs are exactly `l.enum`), and if that sequence is empty the
loop runs zero iterations, records no failure, and the loop step completes
(COMPLETED). -/
theorem collection_loop_iterates_in_order (runBody : Nat → Ctx → BodyOutcome)
    (cfg : LoopConfig) (parentCtx : Ctx) (cname : String) (l : List Val)
    (hcoll : cfg.collection = some cname) (hcount : cfg.count = none)
    (hl : parentCtx.find? cname = some (.vlist l))
    (hff : cfg.fail_fast = false)
    (hns : ∀ i c, (runBody i c).isSuspended = false) :
    (∃ r, executeCollectionOrCountLoop runBody cfg parentCtx parentCtx none false =
        .normal r ∧ r.processed = l.enum ∧ r.iterations = l.length) ∧
    (l = [] →
      executeCollectionOrCountLoop runBody cfg parentCtx parentCtx none false =
        .normal ⟨0, [], false, parentCtx⟩ ∧
      execute_loop_collection runBody cfg parentCtx none false =
        .completedStep (parentCtx.update parentCtx)) := by
  have hempty : l = [] →
      executeCollectionOrCountLoop runBody cfg parentCtx parentCtx none false =
        .normal ⟨0, [], false, parentCtx⟩ := by
    intro hnil
    subst hnil
    unfold executeCollectionOrCountLoop
    simp only [hcoll, hl, hcount]
    simp
  constructor
  · by_cases hnil : l = []
    · subst hnil
      exact ⟨⟨0, [], false, parentCtx⟩, hempty rfl, rfl, rfl⟩
    · obtain ⟨af', ctx', h⟩ :=
        collLoopGo_no_failfast runBody cfg hff hns l.enum parentCtx false []
      refine ⟨⟨([] ++ l.enum).length, [] ++ l.enum, af', ctx'⟩, ?_, by simp, by simp⟩
      unfold executeCollectionOrCountLoop
      have hne : l.isEmpty = false := by
        cases l with
        | nil => exact absurd rfl hnil
        | cons a as => rfl
      simp only [hcoll, hl, hne, Bool.false_eq_true, if_false]
      exact h
  · intro hnil
    refine ⟨hempty hnil, ?_⟩
    unfold execute_loop_collection
    rw [hempty hnil]
    rfl

end Praxis.Loop

namespace Praxis.Loop

open Praxis

/-- Observables of a condition-based loop run: the number of executed
iterations, the loop contexts at which the condition was found truthy (one
per executed iteration, in order), whether the `max_iterations` warning was
recorded, whether any iteration failed, and the final loop context. -/
structure CondLoopResult where
  iterations : Nat
  checks : List Ctx
  warned : Bool
  anyFailed : Bool
  loopCtx : Ctx

/-- Binding of `item_name` and `index_name` (both to the loop counter) into
the iteration context (loop_execution_strategy.py:315-318). -/
def iterationCtxCond (cfg : LoopConfig) (loopCtx : Ctx) (counter : Nat) : Ctx :=
  let c := match cfg.item_name with
    | some k => loopCtx.set k (.vnat counter)
    | none => loopCtx
  match cfg.index_name with | some k => c.set k (.vnat counter) | none => c

/-- The `while loop_counter < max_iterations` loop of
`_execute_condition_based_loop` (loop_execution_strategy.py:290-370),
recursing on `remaining = max_iterations - loop_counter`: the condition is
read from the current loop context (`loop_context.get(condition)`) before
each iteration; a falsy value exits without the warning; a successful or
failed iteration merges the iteration context back before continuing (a
failure re-raises under `fail_fast`); a suspension re-raises without a
merge; exhausting `remaining` leaves the loop with the max-iterations
warning recorded (loop_execution_strategy.py:367-370). -/
def condLoopGo (runBody : Nat → Ctx → BodyOutcome) (cfg : LoopConfig)
    (cond : String) : Nat → Nat → Ctx → Bool → List Ctx → LoopExit CondLoopResult
  | counter, 0, ctx, af, checks => .normal ⟨counter, checks, true, af, ctx⟩
  | counter, remaining + 1, ctx, af, checks =>
      if (ctx.getD cond Val.vnone).truthy then
        let ictx := iterationCtxCond cfg ctx counter
        match runBody counter ictx with
        | .ok data =>
            condLoopGo runBody cfg cond (counter + 1) remaining
              (ctx.update data) af (checks ++ [ctx])
        | .failed data =>
            if cfg.fail_fast then
              .raisedFailFast ⟨counter + 1, checks ++ [ctx], false, true,
                ctx.update data⟩
            else
              condLoopGo runBody cfg cond (counter + 1) remaining
                (ctx.update data) true (checks ++ [ctx])
        | .suspended _ =>
            .raisedSuspend ⟨counter + 1, checks ++ [ctx], false, af, ctx⟩
      else
        .normal ⟨counter, checks, false, af, ctx⟩

/-- `_execute_condition_based_loop` (loop_execution_strategy.py:268-381):
no executable body returns immediately; otherwise the counter loop starts
at zero with `max_iterations` iterations remaining. -/
def executeConditionBasedLoop (runBody : Nat → Ctx → BodyOutcome)
    (cfg : LoopConfig) (cond : String) (loopCtx : Ctx) (bodyEmpty : Bool) :
    LoopExit CondLoopResult :=
  if bodyEmpty then .normal ⟨0, [], false, false, loopCtx⟩
  else condLoopGo runBody cfg cond 0 cfg.max_iterations loopCtx false []

/-- `execute_loop` for a condition loop (loop_execution_strategy.py:68-128):
the loop context starts as a copy of the parent; on normal return or
suspension the loop context is merged back into the parent; the step fails
iff an iteration failed or a `fail_fast` re-raise escaped. -/
def execute_loop_condition (runBody : Nat → Ctx → BodyOutcome)
    (cfg : LoopConfig) (cond : String) (parentCtx : Ctx) (bodyEmpty : Bool) :
    LoopStepResult :=
  match executeConditionBasedLoop runBody cfg cond parentCtx bodyEmpty with
  | .normal r =>
      if r.anyFailed then .failedStep (parentCtx.update r.loopCtx)
      else .completedStep (parentCtx.update r.loopCtx)
  | .raisedSuspend r => .suspendedStep (parentCtx.update r.loopCtx)
  | .raisedFailFast _ => .failedStep parentCtx

theorem condLoopGo_normal (runBody : Nat → Ctx → BodyOutcome)
    (cfg : LoopConfig) (cond : String) :
    ∀ (remaining counter : Nat) (ctx : Ctx) (af : Bool) (checks : List Ctx)
      (r : CondLoopResult),
      condLoopGo runBody cfg cond counter remaining ctx af checks = .normal r →
        (counter ≤ r.iterations ∧ r.iterations ≤ counter + remaining) ∧
        (r.warned = true ↔ r.iterations = counter + remaining) ∧
        (r.checks.length + counter = checks.length + r.iterations) ∧
        (∀ c ∈ r.checks, c ∈ checks ∨
          (SMap.getD c cond Val.vnone).truthy = true) := by
  intro remaining
  induction remaining with
  | zero =>
      intro counter ctx af checks r h
      unfold condLoopGo at h
      simp only [LoopExit.normal.injEq] at h
      subst h
      dsimp only
      refine ⟨⟨le_refl _, by omega⟩, by simp, by omega, ?_⟩
      intro c hc
      exact Or.inl hc
  | succ remaining ih =>
      intro counter ctx af checks r h
      unfold condLoopGo at h
      by_cases hcond : (SMap.getD ctx cond Val.vnone).truthy = true
      · rw [if_pos hcond] at h
        dsimp only at h
        cases hb : runBody counter (iterationCtxCond cfg ctx counter) with
        | ok data =>
            rw [hb] at h
            have := ih (counter + 1) (ctx.update data) af (checks ++ [ctx]) r h
            obtain ⟨⟨h1, h2⟩, h3, h4, h5⟩ := this
            refine ⟨⟨by omega, by omega⟩, by rw [h3]; constructor <;> (intro hx; omega), by simp at h4 ⊢; omega, ?_⟩
            intro c hc
            rcases h5 c hc with hmem | ht
            · rcases List.mem_append.mp hmem with hmem2 | hmem2
              · exact Or.inl hmem2
              · right
                rw [List.mem_singleton.mp hmem2]
                exact hcond
            · exact Or.inr ht
        | failed data =>
            rw [hb] at h
            dsimp only at h
            by_cases hffc : cfg.fail_fast = true
            · rw [if_pos hffc] at h
              exact absurd h (by simp)
            · rw [if_neg hffc] at h
              have := ih (counter + 1) (ctx.update data) true (checks ++ [ctx]) r h
              obtain ⟨⟨h1, h2⟩, h3, h4, h5⟩ := this
              refine ⟨⟨by omega, by omega⟩, by rw [h3]; constructor <;> (intro hx; omega), by simp at h4 ⊢; omega, ?_⟩
              intro c hc
              rcases h5 c hc with hmem | ht
              · rcases List.mem_append.mp hmem with hmem2 | hmem2
                · exact Or.inl hmem2
                · right
                  rw [List.mem_singleton.mp hmem2]
                  exact hcond
              · exact Or.inr ht
        | suspended data =>
            rw [hb] at h
            exact absurd h (by simp)
      · rw [if_neg hcond] at h
        simp only [LoopExit.normal.injEq] at h
        subst h
        dsimp only
        refine ⟨⟨le_refl _, by omega⟩, by simp, by omega, ?_⟩
        intro c hc
        exact Or.inl hc

end Praxis.Loop

namespace Praxis.Loop

open Praxis

/-- C7: every condition-driven loop executes at most `max_iterations`
iterations; the body runs exactly once per recorded condition check, each
against a loop context in which the condition key is truthy (the context
re-evaluated after the previous iteration's results were merged back); the
max-iterations warning is recorded exactly when the cap was reached; and
when no iteration failed, the loop step completes (COMPLETED). -/
theorem condition_loop_capped (runBody : Nat → Ctx → BodyOutcome)
    (cfg : LoopConfig) (cond : String) (loopCtx : Ctx) (r : CondLoopResult)
    (hnorm : executeConditionBasedLoop runBody cfg cond loopCtx false = .normal r) :
    r.iterations ≤ cfg.max_iterations ∧
    r.checks.length = r.iterations ∧
    (∀ c ∈ r.checks, (SMap.getD c cond Val.vnone).truthy = true) ∧
    (r.warned = true ↔ r.iterations = cfg.max_iterations) ∧
    (r.anyFailed = false →
      execute_loop_condition runBody cfg cond loopCtx false =
        .completedStep (loopCtx.update r.loopCtx)) := by
  have hnorm0 : executeConditionBasedLoop runBody cfg cond loopCtx false = .normal r :=
    hnorm
  unfold executeConditionBasedLoop at hnorm
  simp only [Bool.false_eq_true, if_false] at hnorm
  have hmain := condLoopGo_normal runBody cfg cond cfg.max_iterations 0 loopCtx false [] r hnorm
  obtain ⟨⟨_, h2⟩, hwarn, hlen, hmem⟩ := hmain
  refine ⟨by omega, by simpa using hlen, ?_, by simpa using hwarn, ?_⟩
  · intro c hc
    rcases hmem c hc with hm | ht
    · exact absurd hm (List.not_mem_nil c)
    · exact ht
  · intro haf
    unfold execute_loop_condition
    rw [hnorm0]
    simp [haf]

end Praxis.Loop

namespace Praxis.Loop

open Praxis

/-- Condition loop witness scenario: `context["go"]` starts truthy, the
body flips it to false in the second iteration but the loop is capped at
`max_iterations = 2`. -/
def c7Cfg : LoopConfig := ⟨none, none, some "go", some "n", some "i", none, false, 2⟩

def c7Body : Nat → Ctx → BodyOutcome := fun _ c => .ok (c.set "step_done" (.vbool true))

def c7Ctx : Ctx := ⟨[("go", .vbool true)]⟩

def c7Default : CondLoopResult := ⟨0, [], false, false, .empty⟩

def c7Res : CondLoopResult :=
  (executeConditionBasedLoop c7Body c7Cfg "go" c7Ctx false).normalD c7Default

/-- Witness for C7: the concrete capped run executes exactly two
iterations, records the warning, and completes. -/
theorem condition_loop_capped_witness :
    executeConditionBasedLoop c7Body c7Cfg "go" c7Ctx false = .normal c7Res ∧
    c7Res.iterations = 2 ∧ c7Res.warned = true ∧ c7Res.anyFailed = false ∧
    (c7Res.iterations ≤ c7Cfg.max_iterations ∧
     c7Res.checks.length = c7Res.iterations ∧
     (∀ c ∈ c7Res.checks, (SMap.getD c "go" Val.vnone).truthy = true) ∧
     (c7Res.warned = true ↔ c7Res.iterations = c7Cfg.max_iterations) ∧
     (c7Res.anyFailed = false →
       execute_loop_condition c7Body c7Cfg "go" c7Ctx false =
         .completedStep (c7Ctx.update c7Res.loopCtx))) :=
  ⟨rfl, rfl, rfl, rfl,
   condition_loop_capped c7Body c7Cfg "go" c7Ctx c7Res rfl⟩

/-- Collection loop witness scenario: three items, and separately an empty
collection. -/
def c8Cfg : LoopConfig := ⟨some "items", none, none, some "n", some "i", none, false, 100⟩

def c8Body : Nat → Ctx → BodyOutcome := fun i c => .ok (c.set "doubled" (.vnat (2 * i)))

def c8CtxNE : Ctx := ⟨[("items", .vlist [.vnat 1, .vnat 2, .vnat 3])]⟩

def c8CtxE : Ctx := ⟨[("items", .vlist [])]⟩

/-- Witness for C8: a three-item collection is processed in order, and an
empty collection yields zero iterations with the loop step COMPLETED. -/
theorem collection_loop_iterates_in_order_witness :
    ((∃ r, executeCollectionOrCountLoop c8Body c8Cfg c8CtxNE c8CtxNE none false =
        .normal r ∧
        r.processed = ([Val.vnat 1, Val.vnat 2, Val.vnat 3] : List Val).enum ∧
        r.iterations = ([Val.vnat 1, Val.vnat 2, Val.vnat 3] : List Val).length) ∧
     (([Val.vnat 1, Val.vnat 2, Val.vnat 3] : List Val) = [] →
       executeCollectionOrCountLoop c8Body c8Cfg c8CtxNE c8CtxNE none false =
         .normal ⟨0, [], false, c8CtxNE⟩ ∧
       execute_loop_collection c8Body c8Cfg c8CtxNE none false =
         .completedStep (c8CtxNE.update c8CtxNE))) ∧
    ((∃ r, executeCollectionOrCountLoop c8Body c8Cfg c8CtxE c8CtxE none false =
        .normal r ∧ r.processed = ([] : List Val).enum ∧
        r.iterations = ([] : List Val).length) ∧
     (([] : List Val) = [] →
       executeCollectionOrCountLoop c8Body c8Cfg c8CtxE c8CtxE none false =
         .normal ⟨0, [], false, c8CtxE⟩ ∧
       execute_loop_collection c8Body c8Cfg c8CtxE none false =
         .completedStep (c8CtxE.update c8CtxE))) :=
  ⟨collection_loop_iterates_in_order c8Body c8Cfg c8CtxNE "items"
     [.vnat 1, .vnat 2, .vnat 3] rfl rfl rfl rfl (fun _ _ => rfl),
   collection_loop_iterates_in_order c8Body c8Cfg c8CtxE "items"
     [] rfl rfl rfl rfl (fun _ _ => rfl)⟩

end Praxis.Loop

namespace Praxis.ECtx

open Praxis

/-- Heap of context objects.  Python object identity and aliasing are made
explicit: pipeline-context data maps and extras dicts live in stores and
`ExecutionContext` values hold references into them. -/
structure CtxHeap where
  pipelines : List (SMap Val)
  extrasStore : List (SMap Val)

def CtxHeap.pipelineAt (h : CtxHeap) (i : Nat) : SMap Val :=
  (h.pipelines.get? i).getD .empty

def CtxHeap.extrasAt (h : CtxHeap) (i : Nat) : SMap Val :=
  (h.extrasStore.get? i).getD .empty

def CtxHeap.setPipeline (h : CtxHeap) (i : Nat) (m : SMap Val) : CtxHeap :=
  { h with pipelines := h.pipelines.set i m }

def CtxHeap.setExtras (h : CtxHeap) (i : Nat) (m : SMap Val) : CtxHeap :=
  { h with extrasStore := h.extrasStore.set i m }

/-- The declared dataclass fields of `ExecutionContext`
(execution_context.py:76-99), i.e. `self.__dataclass_fields__`. -/
def executionFields : List String :=
  ["_pipeline_context", "checkpoint_id", "resume_data", "is_resume",
   "checkpoint_manager", "loop_iteration", "step_name", "pipeline_tools",
   "pipeline_configuration", "execution_config", "agent_spec", "session_id",
   "extras", "pipeline_config"]

/-- `ExecutionContext` (execution_context.py:48-99): `pipelineRef` is the
reference to the wrapped `PipelineContext`'s data map, `extrasRef` the
reference to the `extras` dict, and `fields` the values of the remaining
dataclass fields (their Python values reduced to `Val`). -/
structure ExecCtx where
  pipelineRef : Nat
  extrasRef : Nat
  fields : SMap Val

/-- The overrides mapping accepted by `spawn_child` (keyword arguments):
per-field overrides plus an optional replacement `extras` dict.  The
`_pipeline_context` is kept shared (the default `overrides.get(...)`
path). -/
structure Overrides where
  fieldOverrides : SMap Val
  extrasOverride : Option (SMap Val)

/-- `ExecutionContext.spawn_child` (execution_context.py:109-144): a new
`ExecutionContext` with the same `_pipeline_context`, each field taken from
`overrides` when present and from the parent otherwise, and
`extras := overrides.get("extras", self.extras.copy())` - a fresh extras
object in either case, so the child's extras never alias the parent's.
`spawnExtras` is the contents of that fresh object. -/
def spawnExtras (h : CtxHeap) (c : ExecCtx) (ov : Overrides) : SMap Val :=
  match ov.extrasOverride with
  | some e => e
  | none => h.extrasAt c.extrasRef

def spawn_child (h : CtxHeap) (c : ExecCtx) (ov : Overrides) : CtxHeap × ExecCtx :=
  let newExtras := spawnExtras h c ov
  let fields := executionFields.foldl
    (fun acc f =>
      match ov.fieldOverrides.find? f with
      | some v => acc.set f v
      | none => acc)
    c.fields
  (⟨h.pipelines, h.extrasStore ++ [newExtras]⟩,
   ⟨c.pipelineRef, h.extrasStore.length, fields⟩)

/-- `ExecutionContext.__setitem__` (execution_context.py:265-277): a key
that is a declared dataclass field is set on the execution context itself;
any other key is delegated to the wrapped pipeline context's store. -/
def ecSetItem (h : CtxHeap) (c : ExecCtx) (k : String) (v : Val) :
    CtxHeap × ExecCtx :=
  if k ∈ executionFields then
    (h, { c with fields := c.fields.set k v })
  else
    (h.setPipeline c.pipelineRef ((h.pipelineAt c.pipelineRef).set k v), c)

/-- `ExecutionContext.__getitem__` (execution_context.py:249-263): declared
fields first, then the extras dict, then the wrapped pipeline context. -/
def ecGetItem (h : CtxHeap) (c : ExecCtx) (k : String) : Option Val :=
  if k ∈ executionFields then
    some ((c.fields.find? k).getD .vnone)
  else
    match (h.extrasAt c.extrasRef).find? k with
    | some v => some v
    | none => (h.pipelineAt c.pipelineRef).find? k

/-- `ExecutionContext.__setattr__` for a name that is not a declared field
(execution_context.py:189-204): stored into the extras dict in place. -/
def ecSetAttrExtra (h : CtxHeap) (c : ExecCtx) (k : String) (v : Val) : CtxHeap :=
  h.setExtras c.extrasRef ((h.extrasAt c.extrasRef).set k v)

theorem smap_find_set_self (m : SMap Val) (k : String) (v : Val) :
    (m.set k v).find? k = some v := by
  simp [SMap.set, SMap.find?, findEntry]

end Praxis.ECtx

namespace Praxis.ECtx

open Praxis

theorem extrasAt_append (h : CtxHeap) (m : SMap Val) (i : Nat)
    (hi : i < h.extrasStore.length) :
    CtxHeap.extrasAt ⟨h.pipelines, h.extrasStore ++ [m]⟩ i = h.extrasAt i := by
  unfold CtxHeap.extrasAt
  rw [List.get?_append hi]

theorem extrasAt_setExtras_ne (h : CtxHeap) (j : Nat) (m : SMap Val) (i : Nat)
    (hij : j ≠ i) :
    (h.setExtras j m).extrasAt i = h.extrasAt i := by
  unfold CtxHeap.extrasAt CtxHeap.setExtras
  rw [List.get?_set_ne _ _ hij]

theorem extrasAt_setPipeline (h : CtxHeap) (i : Nat) (m : SMap Val) (j : Nat) :
    (h.setPipeline i m).extrasAt j = h.extrasAt j := rfl

theorem pipelineAt_setPipeline_self (h : CtxHeap) (i : Nat) (m : SMap Val)
    (hi : i < h.pipelines.length) :
    (h.setPipeline i m).pipelineAt i = m := by
  unfold CtxHeap.pipelineAt CtxHeap.setPipeline
  rw [List.get?_set_eq_of_lt _ hi]
  rfl

/-- C9 (amended): `spawn_child` returns a child sharing the parent's
underlying pipeline-context data map while applying the given overrides
locally.  A key assigned through the child's dict-like interface (other
than the declared execution-specific fields) is written to the shared map
and is subsequently visible through the parent, provided the parent's own
`extras` dict does not shadow that key; spawning does not change what the
parent reads; and writes into the child's (copied) extras never alter the
parent's view. -/
theorem spawn_child_shares_pipeline_map (h : CtxHeap) (parent : ExecCtx)
    (ov : Overrides)
    (hp : parent.pipelineRef < h.pipelines.length)
    (he : parent.extrasRef < h.extrasStore.length) :
    ((spawn_child h parent ov).2.pipelineRef = parent.pipelineRef) ∧
    (∀ k v, k ∉ executionFields →
      (h.extrasAt parent.extrasRef).find? k = none →
      ecGetItem
        (ecSetItem (spawn_child h parent ov).1 (spawn_child h parent ov).2 k v).1
        parent k = some v) ∧
    (∀ k, ecGetItem (spawn_child h parent ov).1 parent k = ecGetItem h parent k) ∧
    (∀ k v, ecGetItem (ecSetAttrExtra (spawn_child h parent ov).1
        (spawn_child h parent ov).2 k v) parent k =
      ecGetItem (spawn_child h parent ov).1 parent k) := by
  refine ⟨rfl, ?_, ?_, ?_⟩
  · intro k v hk hsh
    unfold spawn_child ecSetItem ecGetItem
    simp only [hk, if_false]
    rw [extrasAt_setPipeline, extrasAt_append h _ _ he, hsh]
    rw [pipelineAt_setPipeline_self
      ⟨h.pipelines, h.extrasStore ++ [spawnExtras h parent ov]⟩
      parent.pipelineRef _ hp]
    exact smap_find_set_self _ k v
  · intro k
    unfold spawn_child ecGetItem
    by_cases hk : k ∈ executionFields
    · simp [hk]
    · simp only [hk, if_false]
      rw [extrasAt_append h _ _ he]
      rfl
  · intro k v
    unfold spawn_child ecSetAttrExtra ecGetItem
    by_cases hk : k ∈ executionFields
    · simp [hk]
    · simp only [hk, if_false]
      rw [extrasAt_setExtras_ne _ _ _ _ (by omega : h.extrasStore.length ≠ parent.extrasRef)]
      rfl

end Praxis.ECtx

namespace Praxis.ECtx

open Praxis

/-- Shadowing scenario: the parent's extras dict holds `k`, the pipeline
map does not. -/
def c9Heap : CtxHeap := ⟨[⟨[]⟩], [⟨[("k", .vnat 0)]⟩]⟩

def c9Parent : ExecCtx := ⟨0, 0, ⟨[]⟩⟩

def c9Spawn : CtxHeap × ExecCtx := spawn_child c9Heap c9Parent ⟨⟨[]⟩, none⟩

def c9AfterSet : CtxHeap × ExecCtx := ecSetItem c9Spawn.1 c9Spawn.2 "k" (.vnat 1)

/-- C9 counterexample: `k` is not an execution-specific field and is
assigned through the child via the dict-like interface, yet the parent
still reads the old value - the parent's `extras` entry shadows the shared
pipeline map in `__getitem__`, so the write is not visible through the
parent. -/
theorem spawn_child_shadowed_key_counterexample :
    ("k" ∉ executionFields) ∧
    ecGetItem c9AfterSet.1 c9Parent "k" = some (.vnat 0) ∧
    some (Val.vnat 0) ≠ some (Val.vnat 1) ∧
    (c9AfterSet.1.pipelineAt c9Parent.pipelineRef).find? "k" = some (.vnat 1) := by
  refine ⟨by decide, rfl, by simp, rfl⟩

/-- Witness for C9 (amended) on a concrete heap with no shadowing. -/
theorem spawn_child_shares_pipeline_map_witness :
    (c9Parent.pipelineRef < c9Heap.pipelines.length) ∧
    (c9Parent.extrasRef < c9Heap.extrasStore.length) ∧
    (((spawn_child c9Heap c9Parent ⟨⟨[]⟩, none⟩).2.pipelineRef = c9Parent.pipelineRef) ∧
     (∀ k v, k ∉ executionFields →
       (c9Heap.extrasAt c9Parent.extrasRef).find? k = none →
       ecGetItem
         (ecSetItem (spawn_child c9Heap c9Parent ⟨⟨[]⟩, none⟩).1
           (spawn_child c9Heap c9Parent ⟨⟨[]⟩, none⟩).2 k v).1
         c9Parent k = some v) ∧
     (∀ k, ecGetItem (spawn_child c9Heap c9Parent ⟨⟨[]⟩, none⟩).1 c9Parent k =
       ecGetItem c9Heap c9Parent k) ∧
     (∀ k v, ecGetItem (ecSetAttrExtra (spawn_child c9Heap c9Parent ⟨⟨[]⟩, none⟩).1
         (spawn_child c9Heap c9Parent ⟨⟨[]⟩, none⟩).2 k v) c9Parent k =
       ecGetItem (spawn_child c9Heap c9Parent ⟨⟨[]⟩, none⟩).1 c9Parent k)) ∧
    ecGetItem (ecSetItem (spawn_child c9Heap c9Parent ⟨⟨[]⟩, none⟩).1
      (spawn_child c9Heap c9Parent ⟨⟨[]⟩, none⟩).2 "x" (.vnat 7)).1
      c9Parent "x" = some (.vnat 7) :=
  ⟨by decide, by decide,
   spawn_child_shares_pipeline_map c9Heap c9Parent ⟨⟨[]⟩, none⟩ (by decide) (by decide),
   rfl⟩

end Praxis.ECtx

namespace Praxis.Exec

open Praxis

/-- The transcript reconstructed for an agent step completed during
suspension (dag_executor.py:1362-1378): a fixed preamble, one block per
known collected field, and a fixed closing line. -/
def transcriptFor (collected : Val) : String :=
  let base := "User: I need to collect some information from you.\n\n"
  let base := match collected.dget "full_name" with
    | some v => base ++ "Assistant: What is your full name?\n\nUser: " ++ v.pyStr ++ "\n\n"
    | none => base
  let base := match collected.dget "email" with
    | some v => base ++ "Assistant: What is your email address?\n\nUser: " ++ v.pyStr ++ "\n\n"
    | none => base
  let base := match collected.dget "physical_address" with
    | some v => base ++ "Assistant: What is your physical address?\n\nUser: " ++ v.pyStr ++ "\n\n"
    | none => base
  let base := match collected.dget "birth_date" with
    | some v => base ++ "Assistant: What is your birth date?\n\nUser: " ++ v.pyStr ++ "\n\n"
    | none => base
  base ++ "Assistant: Thank you! I have collected all the required information."

/-- The synthesized step output written to `context[step_name]` on resume
(dag_executor.py:1381-1388). -/
def synthesizedOutput (collected : Val) : Val :=
  .vdict [("transcript", .vstr (transcriptFor collected)),
          ("response", .vstr "Successfully collected all required information."),
          ("metadata", .vdict [("collected_data", collected),
                               ("pipeline_resumed", .vbool true)])]

/-- The state threaded through resume processing: the restored DAG state,
the context, and the fresh suspend context of the resumed execution. -/
structure ResumeState where
  dag : DAGState
  ctx : Ctx
  susp : SuspendContext

/-- One pass of the loop over `checkpoint.suspended_at_steps`
(dag_executor.py:1346-1424).  With no `<step>_resume_data` key in the
context nothing happens.  When the resume data is a dict whose `complete`
entry is truthy, the synthesized output is written to `context[step_name]`
only when a `collected_data` entry is present, and the step is marked
COMPLETED with its error cleared (`mark_step_completed_from_suspension`)
and removed from the suspend context.  Otherwise any recorded error is
cleared and the step is marked resumed. -/
def processResumeStep (st : ResumeState) (step_name : String) : ResumeState :=
  let key := step_name ++ "_resume_data"
  match st.ctx.find? key with
  | none => st
  | some step_resume_data =>
      if step_resume_data.isDict &&
          ((step_resume_data.dget "complete").getD .vnone).truthy then
        let st1 :=
          match step_resume_data.dget "collected_data" with
          | some collected =>
              { st with ctx := st.ctx.set step_name (synthesizedOutput collected) }
          | none => st
        { st1 with
          dag := st1.dag.markCompletedFromSuspension step_name true,
          susp := { st1.susp with
            suspended_steps := st1.susp.suspended_steps.erase step_name } }
      else
        let dag1 :=
          if (st.dag.errorOf step_name).isSome then st.dag.clearStepError step_name
          else st.dag
        { st with dag := dag1.markResumed step_name }

/-- Injection of `context.resume_data` into the context under
`<step>_resume_data` keys (dag_executor.py:1333-1343). -/
def injectResumeData (ctx : Ctx) (resume_data : Option (SMap Val)) : Ctx :=
  match resume_data with
  | none => ctx
  | some rd => rd.entries.foldl (fun c kv => c.set (kv.1 ++ "_resume_data") kv.2) ctx

/-- The state-restoring and step-transition part of `resume_from_checkpoint`
(dag_executor.py:1272-1427): the DAG state is restored from the checkpoint
(`restore_dag_state`, modelled from spec §4.8), the context is populated
with the snapshot (`restore_context`), a fresh `SuspendContext` is
installed, the resume data is injected, and each step in
`suspended_at_steps` is processed in order; execution then continues by
calling `executeDAG` on this state. -/
def resumeTransitions (cp : Checkpoint) (ctx0 : Ctx)
    (resume_data : Option (SMap Val)) : ResumeState :=
  let ctx1 := ctx0.update cp.context_snapshot
  let ctx2 := injectResumeData ctx1 resume_data
  cp.suspended_at_steps.foldl processResumeStep
    ⟨cp.dag_state_snapshot, ctx2, SuspendContext.empty⟩

theorem smap_find_set_self_exec {α : Type} (m : SMap α) (k : String) (v : α) :
    (m.set k v).find? k = some v := by
  simp [SMap.set, SMap.find?, findEntry]

/-- C4 (amended): on `resume_from_checkpoint`, for every step recorded in
the checkpoint's `suspended_at_steps` (processed in order by
`resumeTransitions`): if the context holds `<step>_resume_data` that is a
dict whose `complete` entry is truthy, the step is transitioned directly to
COMPLETED with its error cleared, and a synthesized output is written to
`context[step_name]` exactly when the payload carries a `collected_data`
field (otherwise the context is untouched); if the resume data is present
but not a completion payload, the step's error is cleared and it
transitions back to PENDING; a step with no resume data in the context is
left unchanged. -/
theorem resume_step_transition (st : ResumeState) (s : String) :
    (resumeTransitions = fun cp ctx0 rd =>
      cp.suspended_at_steps.foldl processResumeStep
        ⟨cp.dag_state_snapshot, injectResumeData (ctx0.update cp.context_snapshot) rd,
         SuspendContext.empty⟩) ∧
    (st.ctx.find? (s ++ "_resume_data") = none → processResumeStep st s = st) ∧
    (∀ d, st.ctx.find? (s ++ "_resume_data") = some d →
      (d.isDict && ((d.dget "complete").getD .vnone).truthy) = true →
      ((processResumeStep st s).dag.statusOf s = .completed ∧
       (processResumeStep st s).dag.errorOf s = none ∧
       ((∃ collected, d.dget "collected_data" = some collected ∧
           (processResumeStep st s).ctx.find? s = some (synthesizedOutput collected)) ∨
        (d.dget "collected_data" = none ∧
           (processResumeStep st s).ctx = st.ctx)))) ∧
    (∀ d, st.ctx.find? (s ++ "_resume_data") = some d →
      (d.isDict && ((d.dget "complete").getD .vnone).truthy) = false →
      ((processResumeStep st s).dag.statusOf s = .pending ∧
       (processResumeStep st s).dag.errorOf s = none ∧
       (processResumeStep st s).ctx = st.ctx)) := by
  refine ⟨rfl, ?_, ?_, ?_⟩
  · intro hnone
    unfold processResumeStep
    dsimp only
    rw [hnone]
  · intro d hd hcomplete
    unfold processResumeStep
    dsimp only
    rw [hd]
    simp only [hcomplete, if_true]
    cases hc : d.dget "collected_data" with
    | some collected =>
        refine ⟨?_, ?_, ?_⟩
        · simp [DAGState.markCompletedFromSuspension, DAGState.statusOf,
            DAGState.stateOf, DAGState.setState, smap_find_set_self_exec]
        · simp [DAGState.markCompletedFromSuspension, DAGState.errorOf,
            DAGState.stateOf, DAGState.setState, smap_find_set_self_exec]
        · left
          refine ⟨collected, rfl, ?_⟩
          exact smap_find_set_self_exec _ _ _
    | none =>
        refine ⟨?_, ?_, ?_⟩
        · simp [DAGState.markCompletedFromSuspension, DAGState.statusOf,
            DAGState.stateOf, DAGState.setState, smap_find_set_self_exec]
        · simp [DAGState.markCompletedFromSuspension, DAGState.errorOf,
            DAGState.stateOf, DAGState.setState, smap_find_set_self_exec]
        · right
          refine ⟨?_, ?_⟩
          · rfl
          · rfl
  · intro d hd hcomplete
    unfold processResumeStep
    dsimp only
    rw [hd]
    simp only [hcomplete, Bool.false_eq_true, if_false]
    refine ⟨?_, ?_, ?_⟩
    · simp [DAGState.markResumed, DAGState.statusOf, DAGState.stateOf,
        DAGState.setState, smap_find_set_self_exec]
    · by_cases herr : (st.dag.errorOf s).isSome
      · simp only [herr, if_true]
        simp [DAGState.markResumed, DAGState.clearStepError, DAGState.errorOf,
          DAGState.stateOf, DAGState.setState, SMap.set, SMap.find?, findEntry]
      · simp only [herr, Bool.false_eq_true, if_false]
        simp only [DAGState.markResumed, DAGState.errorOf, DAGState.stateOf,
          DAGState.setState]
        rw [smap_find_set_self_exec]
        simp only [Option.getD]
        simpa using herr
    · trivial

end Praxis.Exec

namespace Praxis.Exec

open Praxis

/-- Checkpoint with two suspended steps: `s` has resume data
`{complete: true}` without a `collected_data` field; `t2` has no resume
data at all. -/
def c4Checkpoint : Checkpoint :=
  ⟨1, "t", "p",
   ⟨["s", "t2"],
    ⟨[("s", ⟨.suspended, some (.generic "waiting for input")⟩),
      ("t2", ⟨.suspended, none⟩)]⟩⟩,
   ⟨[]⟩, ["s", "t2"], .empty, .empty⟩

def c4Final : ResumeState :=
  resumeTransitions c4Checkpoint ⟨[]⟩
    (some ⟨[("s", .vdict [("complete", .vbool true)])]⟩)

/-- C4 counterexample: on resume, step `s` carries the completion marker
`complete: true` and is marked COMPLETED, yet no synthesized output is
written to `context["s"]` (that requires a `collected_data` field); and
step `t2`, which has no resume data, stays SUSPENDED instead of
transitioning back to PENDING. -/
theorem resume_completion_payload_counterexample :
    c4Final.dag.statusOf "s" = .completed ∧
    c4Final.ctx.find? "s" = none ∧
    c4Final.dag.statusOf "t2" = .suspended ∧
    c4Final.dag.statusOf "t2" ≠ .pending := by
  refine ⟨by decide, rfl, by decide, by decide⟩

/-- Concrete resume state for the witness: step `s` has a full completion
payload with collected data. -/
def c4wData : Val :=
  .vdict [("complete", .vbool true),
          ("collected_data", .vdict [("full_name", .vstr "Ada")])]

def c4wState : ResumeState :=
  ⟨⟨["s"], ⟨[("s", ⟨.suspended, some (.generic "waiting")⟩)]⟩⟩,
   ⟨[("s_resume_data", c4wData)]⟩, SuspendContext.empty⟩

/-- Witness for C4 (amended) at a complete payload with collected data. -/
theorem resume_step_transition_witness :
    c4wState.ctx.find? ("s" ++ "_resume_data") = some c4wData ∧
    (c4wData.isDict && ((c4wData.dget "complete").getD .vnone).truthy) = true ∧
    ((processResumeStep c4wState "s").dag.statusOf "s" = .completed ∧
     (processResumeStep c4wState "s").dag.errorOf "s" = none ∧
     ((∃ collected, c4wData.dget "collected_data" = some collected ∧
         (processResumeStep c4wState "s").ctx.find? "s" =
           some (synthesizedOutput collected)) ∨
      (c4wData.dget "collected_data" = none ∧
         (processResumeStep c4wState "s").ctx = c4wState.ctx))) :=
  ⟨rfl, rfl, ((resume_step_transition c4wState "s").2.2.1) c4wData rfl rfl⟩

end Praxis.Exec

namespace Praxis.Conc

open Praxis
open Praxis.Exec

/-- A state of the interleaving model for one normal-phase run: the
semaphore's available permits (`asyncio.Semaphore(max_workers)`,
dag_executor.py:181), the per-step statuses of the DAG state, and the
steps currently inside the `async with self._semaphore` block
(dag_executor.py:566-585), i.e. the steps holding a permit while their
plugin invocation runs. -/
structure ConcState where
  permits : Nat
  statuses : List (String × StepStatus)
  holding : List String

/-- Update one step's status in place. -/
def updStatus (l : List (String × StepStatus)) (n : String) (st : StepStatus) :
    List (String × StepStatus) :=
  l.map (fun kv => if kv.1 = n then (kv.1, st) else kv)

/-- Number of steps whose DAG-state status is RUNNING. -/
def runningCount (s : ConcState) : Nat :=
  (s.statuses.filter (fun kv => decide (kv.2 = .running))).length

/-- One interleaving step.
  * `spawn`: `_create_step_task` is called for a ready step; it calls
    `mark_step_running` synchronously (dag_executor.py:758) before the
    spawned coroutine has run at all, so the step becomes RUNNING with no
    semaphore interaction.  The scheduler creates a task for every ready
    step in a synchronous for-loop before awaiting any of them
    (dag_executor.py:854-858), so consecutive spawns with no acquire in
    between are realizable schedules.  (Readiness itself is abstracted:
    any not-yet-created step may be spawned; this only enlarges the set of
    schedules.)
  * `acquire`: the task's coroutine reaches `async with self._semaphore`
    (dag_executor.py:566), which requires an available permit.
  * `finish`: the invocation completes, the permit is released at the end
    of the with-block, and `_process_completed_task` marks the step
    COMPLETED. -/
inductive ConcStep (mw : Nat) : ConcState → ConcState → Prop
  | spawn (s : ConcState) (n : String)
      (hnew : findEntry s.statuses n = none) :
      ConcStep mw s ⟨s.permits, s.statuses ++ [(n, .running)], s.holding⟩
  | acquire (s : ConcState) (n : String)
      (hrun : findEntry s.statuses n = some .running)
      (hout : n ∉ s.holding) (hperm : 0 < s.permits) :
      ConcStep mw s ⟨s.permits - 1, s.statuses, n :: s.holding⟩
  | finish (s : ConcState) (n : String) (hin : n ∈ s.holding) :
      ConcStep mw s
        ⟨s.permits + 1, updStatus s.statuses n .completed, s.holding.erase n⟩

/-- States reachable from the start of a run: all permits free, no tasks. -/
inductive Reachable (mw : Nat) : ConcState → Prop
  | init : Reachable mw ⟨mw, [], []⟩
  | step {s t : ConcState} : Reachable mw s → ConcStep mw s t → Reachable mw t

/-- C1 (amended): in every reachable state of a run, the number of steps
concurrently holding a permit of the executor's counting semaphore - the
steps whose plugin invocation is inside the `async with self._semaphore`
block - never exceeds `max_workers` (the invariant
`permits + holders = max_workers` holds throughout).  The DAG-state status
RUNNING, by contrast, is set at task creation before the permit is
acquired, so it is not bounded by the semaphore (see the
counterexample). -/
theorem semaphore_bounds_permit_holders (mw : Nat) (s : ConcState)
    (h : Reachable mw s) :
    s.permits + s.holding.length = mw ∧ s.holding.length ≤ mw := by
  have hmain : s.permits + s.holding.length = mw := by
    induction h with
    | init => simp
    | step hr hs ih =>
        cases hs with
        | spawn n hnew => simpa using ih
        | acquire n hrun hout hperm =>
            simp only [List.length_cons]
            omega
        | finish n hin =>
            have hlen := List.length_erase_of_mem hin
            have hpos := List.length_pos_of_mem hin
            simp only [hlen]
            omega
  exact ⟨hmain, by omega⟩

/-- C1 counterexample: with `max_workers = 1`, the scheduler's synchronous
task-creation loop spawns tasks for two independent ready steps, marking
both RUNNING before either coroutine has acquired a permit: a reachable
state has two steps in status RUNNING while zero permits are held,
refuting both that RUNNING is held only under a permit and that at most
`max_workers` steps are RUNNING simultaneously. -/
theorem running_exceeds_max_workers_counterexample :
    Reachable 1 ⟨1, [("a", .running), ("b", .running)], []⟩ ∧
    runningCount ⟨1, [("a", .running), ("b", .running)], []⟩ = 2 ∧
    ¬(runningCount ⟨1, [("a", .running), ("b", .running)], []⟩ ≤ 1) ∧
    (⟨1, [("a", .running), ("b", .running)], []⟩ : ConcState).holding = [] := by
  refine ⟨?_, by decide, by decide, rfl⟩
  have h1 : Reachable 1 ⟨1, [("a", StepStatus.running)], []⟩ :=
    Reachable.step Reachable.init (ConcStep.spawn ⟨1, [], []⟩ "a" rfl)
  exact Reachable.step h1 (ConcStep.spawn ⟨1, [("a", .running)], []⟩ "b" (by decide))

end Praxis.Conc

namespace Praxis.Conc

/-- Witness for C1 (amended): a state with one spawned step holding the
single permit. -/
theorem semaphore_bounds_permit_holders_witness :
    Reachable 1 ⟨0, [("a", Praxis.Exec.StepStatus.running)], ["a"]⟩ ∧
    ((⟨0, [("a", Praxis.Exec.StepStatus.running)], ["a"]⟩ : ConcState).permits +
       (⟨0, [("a", Praxis.Exec.StepStatus.running)], ["a"]⟩ : ConcState).holding.length = 1 ∧
     (⟨0, [("a", Praxis.Exec.StepStatus.running)], ["a"]⟩ : ConcState).holding.length ≤ 1) := by
  have h1 : Reachable 1 ⟨1, [("a", Praxis.Exec.StepStatus.running)], []⟩ :=
    Reachable.step Reachable.init (ConcStep.spawn ⟨1, [], []⟩ "a" rfl)
  have hr : Reachable 1 ⟨0, [("a", Praxis.Exec.StepStatus.running)], ["a"]⟩ :=
    Reachable.step h1 (ConcStep.acquire ⟨1, [("a", Praxis.Exec.StepStatus.running)], []⟩
      "a" rfl (by simp) (by decide))
  exact ⟨hr, semaphore_bounds_permit_holders 1 _ hr⟩

end Praxis.Conc
